import Mathlib

/-!
# tasker: the pull-request creation coordinator (`cmd/pr.go`)

A shallow embedding of the merge-message composer and of the event handlers
registered by `createPrCommandInteractive`, together with the legacy
`createPrCommand`.

Go strings are modelled by Lean `String`s. Every separator and format string
the code uses is ASCII, so cutting at character positions and cutting at byte
positions give the same pieces.
-/

namespace Tasker

/-! ## Go standard library: `strings.Index` and `strings.SplitN` -/

/-- The search `genSplit` makes with `strings.Index`, on character lists: the
position of the first occurrence of `sep` in `s`, counted in characters where
Go counts bytes; `none` stands for Go's `-1`. The position is only used to cut
`s` before and after that occurrence, and these pieces are the same under
both counts. -/
def indexChars (sep : List Char) : List Char → Option Nat
  | [] => if sep.isPrefixOf [] then some 0 else none
  | c :: cs =>
    if sep.isPrefixOf (c :: cs) then some 0
    else (indexChars sep cs).map (· + 1)

/-- The loop of `genSplit`: at most `k` cuts, each at the first occurrence of
`sep` in what is left of `s`; the last piece is the unsplit remainder. -/
def genSplitLoop (sep : List Char) : Nat → List Char → List (List Char)
  | 0, s => [s]
  | k + 1, s =>
    match indexChars sep s with
    | none => [s]
    | some m => s.take m :: genSplitLoop sep k (s.drop (m + sep.length))

/-- Go `explode(s, n)`: up to `n - 1` one-character pieces, then the remainder. -/
def explode : List Char → Nat → List (List Char)
  | _, 0 => []
  | s, 1 => [s]
  | [], _ + 2 => []
  | c :: cs, k + 2 => [c] :: explode cs (k + 1)

/-- Go `strings.SplitN(s, sep, n)` for `n ≥ 0` (`genSplit` with `sepSave = 0`):
nothing for `n = 0`, `explode` for an empty separator, and otherwise at most
`n - 1` cuts, `n` being capped by the length of `s` plus one. For `n = 2` the cap
only tells the empty string from the others. -/
def SplitN (s sep : String) (n : Nat) : List String :=
  if n = 0 then []
  else if sep = "" then (explode s.data (min n s.length)).map String.mk
  else (genSplitLoop sep.data (min n (s.length + 1) - 1) s.data).map String.mk

/-! ## Merge-message composer -/

/-- Function `prependWorkItemIDs` (pr.go:265-270): the loop rewrites `message` to
`fmt.Sprintf("#%s %s", wi, message)` for each id in list order. -/
def prependWorkItemIDs (message : String) (workItemIDs : List String) : String :=
  workItemIDs.foldl (fun message wi => "#" ++ wi ++ " " ++ message) message

/-- Type `pr.UserSelections`: the fields the create handler reads. The branch type
`Br` stands for whatever the UI stores for a selected branch. -/
structure UserSelections (Br : Type) where
  SourceBranch : Br
  TargetBranch : Br
  MergeMessage : String
  WithWorkItemIDs : Bool
  WorkItems : List String
  Squash : Bool
  deriving DecidableEq, Repr

/-- Lines pr.go:226-230: `messageParts := strings.SplitN(s.MergeMessage, "\n\n", 2)`,
`message, description := messageParts[0], ""`, and `description = messageParts[1]`
when there are two parts. -/
def splitMergeMessage (mergeMessage : String) : String × String :=
  let messageParts := SplitN mergeMessage "\n\n" 2
  let message := messageParts.getD 0 ""
  let description := if messageParts.length > 1 then messageParts.getD 1 "" else ""
  (message, description)

/-- Lines pr.go:226-241: the title (`message`) and the `description` that the
create handler passes to `creator.CreatePullRequest`. -/
def composeMessage {Br : Type} (s : UserSelections Br) : String × String :=
  let (message, description) := splitMergeMessage s.MergeMessage
  let (message, description) :=
    if s.WithWorkItemIDs then
      (prependWorkItemIDs message s.WorkItems,
        if description ≠ "" then prependWorkItemIDs ("\n" ++ description) s.WorkItems
        else description)
    else (message, description)
  let description := if description = "" then message else description
  (message, description)

/-! ## The coordinator: collaborators, observable state, event handlers

The remote client, the `pr.Creator` methods, the validator and the terminal UI
are not part of the embedded code: they are parameters. A Go call that returns
`(value, err)` is a pair whose second component is `none` for a nil error. A
`*pr.Creator` or `*git.GitPullRequest` is an `Option` (`none` for nil). Every
collaborator also receives the calls made so far, so that its answer may change
from one call to the next. -/

/-- A call made to the remote collaborators, with its arguments. -/
inductive Call (Cr Br : Type) where
  | NewCreator (repository : String)
  | GetBranchCandidates (creator : Option Cr)
  | SuggestMergeMessage (creator : Option Cr) (targetBranch : Br)
  | CollectWorkItems (creator : Option Cr) (sourceBranch : Br) (mergeMessage : String)
  | CreatePullRequest (creator : Option Cr) (sourceBranch targetBranch : Br)
      (message description : String) (workItems : List String) (squash : Bool)
  deriving DecidableEq, Repr

/-- A method called on the `ui` object by the coordinator. -/
inductive UIOp (Br : Type) where
  | SetRepositories (repositories : List String)
  | SetRepository (repository : String)
  | SetSourceBranches (sources : List Br)
  | SetTargetBranches (targets : List Br)
  | SetWorkItems (workItems : List String)
  | SetMergeMessage (mergeMessage : String)
  | SetError (text : String)
  | Stop
  deriving DecidableEq, Repr

/-- A line written to the terminal: `pterm.Success.Println(url)` or
`pterm.Warning.Println(url)`. -/
inductive Printed where
  | Success (url : String)
  | Warning (url : String)
  deriving DecidableEq, Repr

/-- The collaborators of `createPrCommandInteractive`. -/
structure Remote (Cr Br PR Er : Type) where
  /-- Call `client.NewCreator(ctx, tfsAPI.WiClient, repository)`. -/
  NewCreator : List (Call Cr Br) → String → Option Cr × Option Er
  /-- Call `creator.GetBranchCandidates(ctx)`. -/
  GetBranchCandidates : List (Call Cr Br) → Option Cr → List Br × List Br × Option Er
  /-- Call `creator.SuggestMergeMessage(ctx, &targetBranch)`. -/
  SuggestMergeMessage : List (Call Cr Br) → Option Cr → Br → String × Option Er
  /-- Call `creator.CollectWorkItems(&sourceBranch, mergeMessage)`. -/
  CollectWorkItems : List (Call Cr Br) → Option Cr → Br → String → List String
  /-- Call `creator.CreatePullRequest(ctx, source, target, message, description, workItems, squash)`. -/
  CreatePullRequest : List (Call Cr Br) → Option Cr → Br → Br → String → String →
    List String → Bool → Option PR × Option Er
  /-- Call `pr.GetPullRequestURL(pullrequest)`. -/
  GetPullRequestURL : PR → String
  /-- Call `validator.Struct(s)`: `none` when `s` is valid, else the text of the error
  (`err.Error()`). The validation tags of `pr.UserSelections` are not part of
  the embedded code. -/
  validate : UserSelections Br → Option String

/-- What the closures of `createPrCommandInteractive` share and what they do
to the outside: the captured variables `creator` and `mergeMessage`, whether a
target-branch handler was registered, and the traces of UI calls, remote
calls, terminal lines and values sent on `errChan`. -/
structure State (Cr Br Er : Type) where
  creator : Option Cr
  mergeMessage : String
  targetBranchHandler : Bool
  ui : List (UIOp Br)
  calls : List (Call Cr Br)
  printed : List Printed
  errChan : List (Option Er)
  deriving DecidableEq, Repr

/-- An event delivered by the UI to one of the registered handlers. -/
inductive Event (Br Er : Type) where
  | Cancel
  | Err (err : Er)
  | RepositoryChange (repository : String)
  | TargetBranchChange (targetBranch : Br)
  | SourceBranchChange (sourceBranch : Br)
  | Create (s : UserSelections Br)
  deriving DecidableEq, Repr

section Handlers

variable {Cr Br PR Er : Type}

/-- The statement `errChan <- err` (`none` for `errChan <- nil`). The channel is
unbuffered and read once (pr.go:262): the trace keeps every send a handler
attempts, in order, and only the first of them is ever received. -/
def State.send (st : State Cr Br Er) (err : Option Er) : State Cr Br Er :=
  { st with errChan := st.errChan ++ [err] }

/-- The cancel handler (pr.go:169-171). -/
def cancelHandler (st : State Cr Br Er) : State Cr Br Er :=
  st.send none

/-- The error handler (pr.go:173-175). -/
def errHandler (err : Er) (st : State Cr Br Er) : State Cr Br Er :=
  st.send (some err)

/-- The repository change handler (pr.go:178-193). -/
def repositoryChangeHandler (env : Remote Cr Br PR Er) (repository : String)
    (st : State Cr Br Er) : State Cr Br Er :=
  let (creator, err) := env.NewCreator st.calls repository
  let st := { st with creator := creator, calls := st.calls ++ [Call.NewCreator repository] }
  match err with
  | some err => st.send (some err)
  | none =>
    let (sources, targets, err) := env.GetBranchCandidates st.calls st.creator
    let st := { st with calls := st.calls ++ [Call.GetBranchCandidates st.creator] }
    match err with
    | some err => st.send (some err)
    | none =>
      { st with ui := st.ui ++ [UIOp.SetSourceBranches sources, UIOp.SetTargetBranches targets] }

/-- The target branch change handler (pr.go:202-210). -/
def targetBranchChangeHandler (env : Remote Cr Br PR Er) (targetBranch : Br)
    (st : State Cr Br Er) : State Cr Br Er :=
  let (mergeMessage, err) := env.SuggestMergeMessage st.calls st.creator targetBranch
  let st := { st with
    mergeMessage := mergeMessage
    calls := st.calls ++ [Call.SuggestMergeMessage st.creator targetBranch] }
  match err with
  | some err => st.send (some err)
  | none => { st with ui := st.ui ++ [UIOp.SetMergeMessage st.mergeMessage] }

/-- The source branch change handler (pr.go:213-216). -/
def sourceBranchChangeHandler (env : Remote Cr Br PR Er) (sourceBranch : Br)
    (st : State Cr Br Er) : State Cr Br Er :=
  let workItems := env.CollectWorkItems st.calls st.creator sourceBranch st.mergeMessage
  { st with
    calls := st.calls ++ [Call.CollectWorkItems st.creator sourceBranch st.mergeMessage]
    ui := st.ui ++ [UIOp.SetWorkItems workItems] }

/-- The create handler (pr.go:219-255). -/
def createHandler (env : Remote Cr Br PR Er) (s : UserSelections Br)
    (st : State Cr Br Er) : State Cr Br Er :=
  match env.validate s with
  | some text => { st with ui := st.ui ++ [UIOp.SetError text] }
  | none =>
    let (message, description) := composeMessage s
    let (pullrequest, err) := env.CreatePullRequest st.calls st.creator
      s.SourceBranch s.TargetBranch message description s.WorkItems s.Squash
    let st := { st with
      calls := st.calls ++ [Call.CreatePullRequest st.creator s.SourceBranch s.TargetBranch
        message description s.WorkItems s.Squash] }
    let st :=
      match pullrequest with
      | some pullrequest =>
        let url := env.GetPullRequestURL pullrequest
        { st with
          ui := st.ui ++ [UIOp.Stop]
          printed := st.printed ++
            [match err with
             | none => Printed.Success url
             | some _ => Printed.Warning url] }
      | none => st
    st.send err

/-- Dispatch of one UI event to the handler registered for it. A target branch
change reaches a handler only when one was registered (pr.go:199-211). -/
def step (env : Remote Cr Br PR Er) (st : State Cr Br Er) : Event Br Er → State Cr Br Er
  | Event.Cancel => cancelHandler st
  | Event.Err err => errHandler err st
  | Event.RepositoryChange repository => repositoryChangeHandler env repository st
  | Event.TargetBranchChange targetBranch =>
    if st.targetBranchHandler then targetBranchChangeHandler env targetBranch st else st
  | Event.SourceBranchChange sourceBranch => sourceBranchChangeHandler env sourceBranch st
  | Event.Create s => createHandler env s st

/-- The handlers run one at a time, in the order the events arrive. -/
def run (env : Remote Cr Br PR Er) (st : State Cr Br Er) (events : List (Event Br Er)) :
    State Cr Br Er :=
  events.foldl (step env) st

/-- The statement `return <-errChan` (pr.go:262): the caller gets the first value
sent on the channel; `none` while nothing has been sent. -/
def State.result (st : State Cr Br Er) : Option (Option Er) :=
  st.errChan.head?

/-- The process exit code for the error a command returns: `cobra.CheckErr`
exits with 1 on a non-nil error and lets the process end with 0 otherwise. -/
def exitCode (err : Option Er) : Nat :=
  match err with
  | none => 0
  | some _ => 1

/-- The state in which `createPrCommandInteractive` waits for events
(pr.go:177, 195-201, 257-260): the flag message replaces an empty argument; a
non-empty message is shown at once and otherwise the target-branch handler is
registered; the repositories are shown and the flag repository is selected when
it is one of them. Whether `ui.SetRepository` fires the repository change
handler is up to the UI: the change it causes, if any, is an event like the
others. -/
def initState (flagMessage flagRepository : String) (repositories : List String)
    (mergeMessage : String) : State Cr Br Er :=
  let mergeMessage := if mergeMessage = "" then flagMessage else mergeMessage
  let shown : List (UIOp Br) :=
    if mergeMessage ≠ "" then [UIOp.SetMergeMessage mergeMessage] else []
  let selected : List (UIOp Br) :=
    if flagRepository ≠ "" ∧ flagRepository ∈ repositories then
      [UIOp.SetRepository flagRepository]
    else []
  { creator := none
    mergeMessage := mergeMessage
    targetBranchHandler := decide (mergeMessage = "")
    ui := shown ++ [UIOp.SetRepositories repositories] ++ selected
    calls := []
    printed := []
    errChan := [] }

/-- The collaborators of the legacy `createPrCommand`: the errors of
`tfs.NewAPI` and `pr.NewClient` (`none` for success), `client.RequestRepository`,
`client.NewCreator`, `creator.Create` and `pr.GetPullRequestURL`. -/
structure LegacyRemote (Cr PR Er : Type) where
  NewAPI : Option Er
  NewClient : Option Er
  RequestRepository : String × Option Er
  NewCreator : String → Option Cr × Option Er
  Create : Option Cr → String → String → Option PR × Option Er
  GetPullRequestURL : PR → String

/-- The legacy `createPrCommand` (pr.go:103-143): the lines it prints and the
error it returns. -/
def createPrCommand (env : LegacyRemote Cr PR Er) (flagRepository flagMessage : String)
    (message : String) : List Printed × Option Er :=
  match env.NewAPI with
  | some err => ([], some err)
  | none =>
  match env.NewClient with
  | some err => ([], some err)
  | none =>
  let (repository, err) :=
    if flagRepository = "" then env.RequestRepository else (flagRepository, none)
  match err with
  | some err => ([], some err)
  | none =>
  let (creator, err) := env.NewCreator repository
  match err with
  | some err => ([], some err)
  | none =>
  let message := if message = "" then flagMessage else message
  let (pullrequest, err) := env.Create creator message ""
  match pullrequest with
  | some pullrequest =>
    let url := env.GetPullRequestURL pullrequest
    ([match err with
      | none => Printed.Success url
      | some _ => Printed.Warning url], err)
  | none => ([], err)

end Handlers

/-- Modelled from the spec: the validation schema of `pr.UserSelections`, whose
declaration and tags are not part of the embedded code. The selections fail
unless the source and target branch and the merge message are non-empty and
every work-item identifier is a non-empty run of digits. The text names the
first field that fails. -/
def validateSelections (s : UserSelections String) : Option String :=
  if s.SourceBranch = "" then some "SourceBranch is required"
  else if s.TargetBranch = "" then some "TargetBranch is required"
  else if s.MergeMessage = "" then some "MergeMessage is required"
  else if s.WorkItems.all (fun wi => wi ≠ "" && wi.data.all Char.isDigit) then none
  else some "WorkItems must be numeric"

/-- A sample set of collaborators: repository `"repoA"` cannot be opened, every
other repository opens creator `1` with branches `dev` and `main`; submission
answers with pull request `42` and, for a squash merge, also with an error. -/
def sampleRemote : Remote Nat String Nat String where
  NewCreator := fun _ repository =>
    if repository = "repoA" then (none, some "cannot open repoA") else (some 1, none)
  GetBranchCandidates := fun _ _ => (["dev"], ["main"], none)
  SuggestMergeMessage := fun _ _ targetBranch => ("Merge into " ++ targetBranch, none)
  CollectWorkItems := fun _ _ _ _ => ["7"]
  CreatePullRequest := fun _ _ _ _ _ _ _ squash =>
    if squash then (some 42, some "timeout") else (some 42, none)
  GetPullRequestURL := fun pullrequest => "https://svc/pr/" ++ toString pullrequest
  validate := validateSelections

/-- The initial state for repositories `"repoA"` and `"repoB"`, with no message
and no repository given up front. -/
def sampleInit : State Nat String String :=
  initState "" "" ["repoA", "repoB"] ""

/-- A state reached after repository `"repoB"` was opened. -/
def sampleState : State Nat String String :=
  repositoryChangeHandler sampleRemote "repoB" sampleInit

/-- Sample collaborators of the legacy command: the user picks `"repoB"`, and
`Create` answers with pull request `42` and no error. -/
def sampleLegacyRemote : LegacyRemote Nat Nat String where
  NewAPI := none
  NewClient := none
  RequestRepository := ("repoB", none)
  NewCreator := fun _ => (some 1, none)
  Create := fun _ _ _ => (some 42, none)
  GetPullRequestURL := fun pullrequest => "https://svc/pr/" ++ toString pullrequest

/-- Sample collaborators that open every repository but cannot list its
branches, and that fail to suggest a merge message for target `"gone"`. -/
def sampleFailingRemote : Remote Nat String Nat String where
  NewCreator := fun _ _ => (some 1, none)
  GetBranchCandidates := fun _ _ => ([], [], some "cannot list branches")
  SuggestMergeMessage := fun _ _ targetBranch =>
    if targetBranch = "gone" then ("", some "no such branch")
    else ("Merge into " ++ targetBranch, none)
  CollectWorkItems := fun _ _ _ _ => ["7"]
  CreatePullRequest := fun _ _ _ _ _ _ _ _ => (none, some "rejected")
  GetPullRequestURL := fun pullrequest => "https://svc/pr/" ++ toString pullrequest
  validate := validateSelections

/-! ## Classification of trace entries and events -/

/-- Whether a remote call is `creator.SuggestMergeMessage`. -/
def Call.isSuggestMergeMessage {Cr Br : Type} : Call Cr Br → Bool
  | Call.SuggestMergeMessage _ _ => true
  | _ => false

/-- Whether a remote call is `creator.CreatePullRequest`. -/
def Call.isCreatePullRequest {Cr Br : Type} : Call Cr Br → Bool
  | Call.CreatePullRequest _ _ _ _ _ _ _ => true
  | _ => false

/-- Whether a UI call is `ui.SetMergeMessage`. -/
def UIOp.isSetMergeMessage {Br : Type} : UIOp Br → Bool
  | UIOp.SetMergeMessage _ => true
  | _ => false

/-- Whether an event is a change of the target branch. -/
def Event.isTargetBranchChange {Br Er : Type} : Event Br Er → Bool
  | Event.TargetBranchChange _ => true
  | _ => false

/-! ## Work-item recognizer of the prompt UI (`tfs/pr/uipromptkit.go`) -/

/-- The `Validate` closure of `promptkitUI.ConfirmWorkItems`
(uipromptkit.go:69-74): nil when `regexp.MatchString(workItemsRegexp, input)`
answers `(true, nil)`, and otherwise the error `"invalid input"`. The answer
of `regexp.MatchString` for the pattern `workItemsRegexp` is the parameter
`MatchString`. -/
def Validate {Er : Type} (MatchString : String → Bool × Option Er) (input : String) :
    Option String :=
  let (m, err) := MatchString input
  if m && err.isNone then none else some "invalid input"

/-- One optional leading `#` removed. -/
def stripHash : List Char → List Char
  | '#' :: cs => cs
  | cs => cs

/-- Modelled from the spec: the answer of `regexp.MatchString(workItemsRegexp, input)`.
The constant `workItemsRegexp` is not part of the embedded code. By the spec
the recognizer holds iff the candidate, after stripping an optional leading
`#`, is composed entirely of digits, a work-item identifier being one or more
ASCII digits (`^\d+$`); the pattern is a constant that compiles, so the error
is nil. -/
def matchWorkItemsRegexp (input : String) : Bool × Option String :=
  (!(stripHash input.data).isEmpty && (stripHash input.data).all Char.isDigit, none)

/-! ## Auxiliary facts about `strings.Index` and `strings.SplitN` -/

theorem indexChars_some_split (sep : List Char) :
    ∀ (s : List Char) (m : Nat), indexChars sep s = some m →
      s = s.take m ++ sep ++ s.drop (m + sep.length)
  | [], m, h => by
    simp only [indexChars] at h
    split at h
    · rename_i hp
      have hsep : sep = [] := by simpa using hp
      cases h
      simp [hsep]
    · cases h
  | c :: cs, m, h => by
    simp only [indexChars] at h
    split at h
    · rename_i hp
      cases h
      obtain ⟨t, ht⟩ := List.isPrefixOf_iff_prefix.mp hp
      rw [← ht]
      simp
    · cases hi : indexChars sep cs with
      | none => simp [hi] at h
      | some k =>
        simp only [hi, Option.map_some', Option.some.injEq] at h
        subst h
        have ih := indexChars_some_split sep cs k hi
        have : k + 1 + sep.length = (k + sep.length) + 1 := by omega
        rw [this, List.take_succ_cons, List.drop_succ_cons]
        simp only [List.cons_append, List.append_assoc] at ih ⊢
        rw [← ih]

theorem indexChars_some_first (sep : List Char) :
    ∀ (s : List Char) (m : Nat), indexChars sep s = some m →
      ∀ a b : List Char, s = a ++ sep ++ b → m ≤ a.length
  | [], m, h, a, b, hab => by
    simp only [indexChars] at h
    split at h
    · cases h; omega
    · cases h
  | c :: cs, m, h, a, b, hab => by
    simp only [indexChars] at h
    split at h
    · cases h; omega
    · rename_i hp
      cases hi : indexChars sep cs with
      | none => simp [hi] at h
      | some k =>
        simp only [hi, Option.map_some', Option.some.injEq] at h
        subst h
        cases a with
        | nil =>
          exfalso
          apply hp
          apply List.isPrefixOf_iff_prefix.mpr
          exact ⟨b, by simpa using hab.symm⟩
        | cons x a =>
          simp only [List.cons_append, List.cons.injEq] at hab
          have := indexChars_some_first sep cs k hi a b hab.2
          simp only [List.length_cons]
          omega

theorem indexChars_none (sep : List Char) :
    ∀ (s : List Char), indexChars sep s = none →
      ∀ a b : List Char, s ≠ a ++ sep ++ b
  | [], h, a, b, hab => by
    simp only [indexChars] at h
    split at h
    · cases h
    · rename_i hp
      apply hp
      have h1 : a ++ sep ++ b = [] := hab.symm
      simp only [List.append_eq_nil] at h1
      rw [h1.1.2]
      simp
  | c :: cs, h, a, b, hab => by
    simp only [indexChars] at h
    split at h
    · cases h
    · rename_i hp
      cases hi : indexChars sep cs with
      | some k => simp [hi] at h
      | none =>
        cases a with
        | nil =>
          apply hp
          apply List.isPrefixOf_iff_prefix.mpr
          exact ⟨b, by simpa using hab.symm⟩
        | cons x a =>
          simp only [List.cons_append, List.cons.injEq] at hab
          exact indexChars_none sep cs hi a b hab.2

theorem splitMergeMessage_eq (raw : String) :
    splitMergeMessage raw =
      match indexChars ['\n', '\n'] raw.data with
      | none => (raw, "")
      | some m => (String.mk (raw.data.take m), String.mk (raw.data.drop (m + 2))) := by
  obtain ⟨l⟩ := raw
  have hsep : ("\n\n" : String) ≠ "" := by decide
  have hdata : ("\n\n" : String).data = ['\n', '\n'] := rfl
  cases l with
  | nil =>
    have h0 : indexChars ['\n', '\n'] [] = none := by decide
    simp only [h0]
    rfl
  | cons c cs =>
    have hmin : min 2 ((String.mk (c :: cs)).length + 1) - 1 = 1 := by
      simp only [String.length, List.length_cons]
      omega
    simp only [splitMergeMessage, SplitN, hsep, hdata, hmin, if_false]
    cases hi : indexChars ['\n', '\n'] (c :: cs) with
    | none => simp [genSplitLoop, hi]
    | some m => simp [genSplitLoop, hi]

theorem SplitN_blank_line_length (raw : String) :
    (SplitN raw "\n\n" 2).length = 1 ∨ (SplitN raw "\n\n" 2).length = 2 := by
  obtain ⟨l⟩ := raw
  have hsep : ("\n\n" : String) ≠ "" := by decide
  have hdata : ("\n\n" : String).data = ['\n', '\n'] := rfl
  have h20 : ¬ (2 = 0) := by decide
  have hk : min 2 ((String.mk l).length + 1) - 1 = 0 ∨
      min 2 ((String.mk l).length + 1) - 1 = 1 := by omega
  simp only [SplitN, hsep, hdata, h20, if_false, List.length_map]
  rcases hk with hk | hk
  · rw [hk]
    simp [genSplitLoop]
  · rw [hk]
    cases hi : indexChars ['\n', '\n'] l <;> simp [genSplitLoop, hi]

theorem indexChars_isSome_of_occurrence (sep : List Char) (s a b : List Char)
    (h : s = a ++ sep ++ b) : ∃ m, indexChars sep s = some m := by
  cases hi : indexChars sep s with
  | none => exact absurd h (indexChars_none sep s hi a b)
  | some m => exact ⟨m, rfl⟩

theorem blankLine_data : ("\n\n" : String).data = ['\n', '\n'] := rfl

theorem prependWorkItemIDs_cons (m i : String) (ids : List String) :
    prependWorkItemIDs m (i :: ids) = prependWorkItemIDs ("#" ++ i ++ " " ++ m) ids := rfl

theorem prependWorkItemIDs_foldr (ids : List String) :
    ∀ m : String, prependWorkItemIDs m ids =
      (ids.reverse.map (fun i => "#" ++ i ++ " ")).foldr (fun p acc => p ++ acc) m := by
  induction ids with
  | nil => intro m; rfl
  | cons i ids ih =>
    intro m
    rw [prependWorkItemIDs_cons, ih]
    simp [List.foldr_append]

theorem prependWorkItemIDs_append (ids : List String) :
    ∀ m : String, prependWorkItemIDs m ids = prependWorkItemIDs "" ids ++ m := by
  induction ids with
  | nil => intro m; simp [prependWorkItemIDs]
  | cons i ids ih =>
    intro m
    rw [prependWorkItemIDs_cons, prependWorkItemIDs_cons, ih, ih ("#" ++ i ++ " " ++ "")]
    simp [String.append_assoc]

/-! ## Auxiliary facts about the merge-message composer and the create handler -/

theorem occurrence_data (raw a b : String) (h : raw = a ++ "\n\n" ++ b) :
    raw.data = a.data ++ ['\n', '\n'] ++ b.data := by
  rw [h]
  simp [String.data_append, blankLine_data]

theorem splitMergeMessage_of_index_some (raw : String) (m : Nat)
    (h : indexChars ['\n', '\n'] raw.data = some m) :
    splitMergeMessage raw = (String.mk (raw.data.take m), String.mk (raw.data.drop (m + 2))) := by
  rw [splitMergeMessage_eq, h]

theorem splitMergeMessage_of_index_none (raw : String)
    (h : indexChars ['\n', '\n'] raw.data = none) :
    splitMergeMessage raw = (raw, "") := by
  rw [splitMergeMessage_eq, h]

theorem index_none_of_no_blank_line (raw : String)
    (h : ¬ ∃ a b : String, raw = a ++ "\n\n" ++ b) :
    indexChars ['\n', '\n'] raw.data = none := by
  cases hi : indexChars ['\n', '\n'] raw.data with
  | none => rfl
  | some m =>
    exfalso
    apply h
    refine ⟨String.mk (raw.data.take m), String.mk (raw.data.drop (m + 2)), ?_⟩
    apply String.ext
    have := indexChars_some_split _ _ _ hi
    simpa [String.data_append, blankLine_data] using this

theorem splitMergeMessage_no_blank_line (raw : String)
    (h : ¬ ∃ a b : String, raw = a ++ "\n\n" ++ b) :
    splitMergeMessage raw = (raw, "") :=
  splitMergeMessage_of_index_none raw (index_none_of_no_blank_line raw h)

theorem splitMergeMessage_blank_line (raw : String)
    (h : ∃ a b : String, raw = a ++ "\n\n" ++ b) :
    raw = (splitMergeMessage raw).1 ++ "\n\n" ++ (splitMergeMessage raw).2
    ∧ (¬ ∃ a b : String, (splitMergeMessage raw).1 = a ++ "\n\n" ++ b)
    ∧ (∀ a b : String, raw = a ++ "\n\n" ++ b → (splitMergeMessage raw).1.length ≤ a.length) := by
  obtain ⟨a₀, b₀, h₀⟩ := h
  obtain ⟨m, hm⟩ := indexChars_isSome_of_occurrence _ _ _ _ (occurrence_data raw a₀ b₀ h₀)
  have hsplit := indexChars_some_split _ _ _ hm
  have hfirst := indexChars_some_first _ _ _ hm
  rw [splitMergeMessage_of_index_some raw m hm]
  have hlen : ∀ a b : String, raw = a ++ "\n\n" ++ b →
      (String.mk (raw.data.take m)).length ≤ a.length := by
    intro a b hab
    have := hfirst a.data b.data (occurrence_data raw a b hab)
    simp only [String.length, List.length_take]
    omega
  have heq : raw = String.mk (raw.data.take m) ++ "\n\n" ++ String.mk (raw.data.drop (m + 2)) := by
    apply String.ext
    simpa [String.data_append, blankLine_data] using hsplit
  refine ⟨heq, ?_, hlen⟩
  rintro ⟨a, b, hab⟩
  have hraw : raw = a ++ "\n\n" ++ (b ++ "\n\n" ++ String.mk (raw.data.drop (m + 2))) := by
    conv_lhs => rw [heq]
    simp only at hab
    rw [hab]
    simp [String.append_assoc]
  have h1 := hlen a _ hraw
  simp only at hab
  rw [hab] at h1
  simp [String.length_append] at h1
  have : ("\n\n" : String).length = 2 := by decide
  omega

section HandlerFacts

variable {Cr Br PR Er : Type}

theorem createHandler_calls (env : Remote Cr Br PR Er) (st : State Cr Br Er)
    (s : UserSelections Br) (hv : env.validate s = none) :
    (createHandler env s st).calls = st.calls ++
      [Call.CreatePullRequest st.creator s.SourceBranch s.TargetBranch
        (composeMessage s).1 (composeMessage s).2 s.WorkItems s.Squash] := by
  simp only [createHandler, hv, State.send]
  split <;> rfl

theorem createHandler_effect (env : Remote Cr Br PR Er) (st : State Cr Br Er)
    (s : UserSelections Br) (pullrequest : Option PR) (err : Option Er)
    (hv : env.validate s = none)
    (hc : env.CreatePullRequest st.calls st.creator s.SourceBranch s.TargetBranch
      (composeMessage s).1 (composeMessage s).2 s.WorkItems s.Squash = (pullrequest, err)) :
    createHandler env s st =
      { st with
        calls := st.calls ++
          [Call.CreatePullRequest st.creator s.SourceBranch s.TargetBranch
            (composeMessage s).1 (composeMessage s).2 s.WorkItems s.Squash]
        ui := st.ui ++
          (match pullrequest with
           | some _ => [UIOp.Stop]
           | none => [])
        printed := st.printed ++
          (match pullrequest, err with
           | some p, none => [Printed.Success (env.GetPullRequestURL p)]
           | some p, some _ => [Printed.Warning (env.GetPullRequestURL p)]
           | none, _ => [])
        errChan := st.errChan ++ [err] } := by
  simp only [createHandler, hv, State.send, hc]
  cases pullrequest <;> cases err <;> simp

end HandlerFacts

theorem no_blank_line_of_index_none (raw : String)
    (h : indexChars ['\n', '\n'] raw.data = none) :
    ¬ ∃ a b : String, raw = a ++ "\n\n" ++ b := by
  rintro ⟨a, b, hab⟩
  exact indexChars_none _ _ h a.data b.data (occurrence_data raw a b hab)

theorem splitMergeMessage_fst_no_blank_line (raw : String) :
    ¬ ∃ a b : String, (splitMergeMessage raw).1 = a ++ "\n\n" ++ b := by
  by_cases h : ∃ a b : String, raw = a ++ "\n\n" ++ b
  · exact (splitMergeMessage_blank_line raw h).2.1
  · rw [splitMergeMessage_no_blank_line raw h]
    exact h

theorem prependWorkItemIDs_eq_empty (m : String) (ids : List String)
    (h : prependWorkItemIDs m ids = "") : m = "" := by
  rw [prependWorkItemIDs_append] at h
  have hlen := congrArg String.length h
  rw [String.length_append] at hlen
  have h0 : m.length = 0 := by
    have : ("" : String).length = 0 := rfl
    omega
  apply String.ext
  exact List.length_eq_zero.mp h0

section ComposeFacts

variable {Br : Type}

theorem composeMessage_off (s : UserSelections Br) (hp : s.WithWorkItemIDs = false) :
    composeMessage s =
      ((splitMergeMessage s.MergeMessage).1,
        if (splitMergeMessage s.MergeMessage).2 = "" then (splitMergeMessage s.MergeMessage).1
        else (splitMergeMessage s.MergeMessage).2) := by
  simp [composeMessage, hp]

theorem composeMessage_on_empty (s : UserSelections Br) (hp : s.WithWorkItemIDs = true)
    (hd : (splitMergeMessage s.MergeMessage).2 = "") :
    composeMessage s =
      (prependWorkItemIDs (splitMergeMessage s.MergeMessage).1 s.WorkItems,
        prependWorkItemIDs (splitMergeMessage s.MergeMessage).1 s.WorkItems) := by
  simp [composeMessage, hp, hd]

theorem composeMessage_on_nonempty (s : UserSelections Br) (hp : s.WithWorkItemIDs = true)
    (hd : (splitMergeMessage s.MergeMessage).2 ≠ "") :
    composeMessage s =
      (prependWorkItemIDs (splitMergeMessage s.MergeMessage).1 s.WorkItems,
        prependWorkItemIDs ("\n" ++ (splitMergeMessage s.MergeMessage).2) s.WorkItems) := by
  have hne : prependWorkItemIDs ("\n" ++ (splitMergeMessage s.MergeMessage).2) s.WorkItems ≠ "" := by
    intro h
    have h1 := congrArg String.length (prependWorkItemIDs_eq_empty _ _ h)
    rw [String.length_append] at h1
    have h2 : ("\n" : String).length = 1 := rfl
    have h3 : ("" : String).length = 0 := rfl
    omega
  simp [composeMessage, hp, hd, hne]

theorem composeMessage_snd_ne_empty (s : UserSelections Br) (h : (composeMessage s).1 ≠ "") :
    (composeMessage s).2 ≠ "" := by
  cases hp : s.WithWorkItemIDs with
  | false =>
    rw [composeMessage_off s hp] at h ⊢
    simp only at h ⊢
    split
    · exact h
    · assumption
  | true =>
    by_cases hd : (splitMergeMessage s.MergeMessage).2 = ""
    · rw [composeMessage_on_empty s hp hd] at h ⊢
      exact h
    · rw [composeMessage_on_nonempty s hp hd]
      intro h'
      have h1 := congrArg String.length (prependWorkItemIDs_eq_empty _ _ h')
      rw [String.length_append] at h1
      have h2 : ("\n" : String).length = 1 := rfl
      have h3 : ("" : String).length = 0 := rfl
      omega

end ComposeFacts

theorem prependWorkItemIDs_no_newline (ids : List String) :
    (∀ wi ∈ ids, '\n' ∉ wi.data) → '\n' ∉ (prependWorkItemIDs "" ids).data := by
  induction ids with
  | nil => intro _; simp [prependWorkItemIDs]
  | cons i ids ih =>
    intro h
    rw [prependWorkItemIDs_cons, prependWorkItemIDs_append]
    have hi : '\n' ∉ i.data := h i (List.mem_cons_self _ _)
    have hrest := ih (fun wi hwi => h wi (List.mem_cons_of_mem _ hwi))
    have h1 : ("#" : String).data = ['#'] := rfl
    have h2 : (" " : String).data = [' '] := rfl
    have h3 : ("" : String).data = [] := rfl
    simp only [String.data_append, h1, h2, h3, List.mem_append, List.mem_singleton,
      List.not_mem_nil, or_false, not_or]
    exact ⟨hrest, ⟨⟨by decide, hi⟩, by decide⟩⟩

/-! ## Merge-message composer: claims -/

/-- C1: for every message `m` and id list `[i1, ..., in]`, `prependWorkItemIDs m ids`
is `"#" ++ in ++ " " ++ ... ++ "#" ++ i1 ++ " " ++ m`: the prefixes `"#" ++ i ++ " "`
are laid out in reverse of the input order, the last id leftmost, in front of `m`.
In particular `prependWorkItemIDs "msg" ["1","2","3"] = "#3 #2 #1 msg"`, and the
empty list leaves `m` unchanged. -/
theorem prependWorkItemIDs_reversed (m : String) (ids : List String) :
    prependWorkItemIDs m ids =
      (ids.reverse.map (fun i => "#" ++ i ++ " ")).foldr (fun p acc => p ++ acc) m
    ∧ (∀ (i : String) (front : List String),
        prependWorkItemIDs m (front ++ [i]) = "#" ++ i ++ " " ++ prependWorkItemIDs m front)
    ∧ prependWorkItemIDs "msg" ["1", "2", "3"] = "#3 #2 #1 msg"
    ∧ prependWorkItemIDs m [] = m := by
  refine ⟨prependWorkItemIDs_foldr ids m, ?_, by decide, rfl⟩
  intro i front
  simp [prependWorkItemIDs, List.foldl_append]

/-- C2: when the raw merge message contains a blank line, the split of the create
handler cuts at the first `"\n\n"` only: title, `"\n\n"` and description put
together give back the raw message, the title contains no `"\n\n"`, and no
other way of cutting the message at a `"\n\n"` has a shorter left part, so
every later blank line stays inside the description. `"Title\n\nBody"` gives
`("Title", "Body")`. -/
theorem splitMergeMessage_first_blank_line (raw : String)
    (h : ∃ a b : String, raw = a ++ "\n\n" ++ b) :
    raw = (splitMergeMessage raw).1 ++ "\n\n" ++ (splitMergeMessage raw).2
    ∧ (¬ ∃ a b : String, (splitMergeMessage raw).1 = a ++ "\n\n" ++ b)
    ∧ (∀ a b : String, raw = a ++ "\n\n" ++ b → (splitMergeMessage raw).1.length ≤ a.length)
    ∧ splitMergeMessage "Title\n\nBody" = ("Title", "Body")
    ∧ splitMergeMessage "Title\n\nBody\n\nMore" = ("Title", "Body\n\nMore") := by
  obtain ⟨h1, h2, h3⟩ := splitMergeMessage_blank_line raw h
  exact ⟨h1, h2, h3, by decide, by decide⟩

/-- Witness of C2 at the message `"A\n\nB\n\nC"`, which has two blank lines. -/
theorem splitMergeMessage_first_blank_line_witness :
    (∃ a b : String, "A\n\nB\n\nC" = a ++ "\n\n" ++ b)
    ∧ splitMergeMessage "A\n\nB\n\nC" = ("A", "B\n\nC")
    ∧ "A\n\nB\n\nC" =
        (splitMergeMessage "A\n\nB\n\nC").1 ++ "\n\n" ++ (splitMergeMessage "A\n\nB\n\nC").2 :=
  ⟨⟨"A\n\nB", "C", by decide⟩, by decide,
    (splitMergeMessage_first_blank_line "A\n\nB\n\nC" ⟨"A\n\nB", "C", by decide⟩).1⟩

section ComposerClaims

variable {Cr Br PR Er : Type}

/-- C3: when the raw merge message contains no blank line and work-item prefixing
is off, the create handler (validation passed) calls `CreatePullRequest` with
the raw message both as title and as description; `"Title only"` gives
`("Title only", "Title only")`. -/
theorem create_without_blank_line (env : Remote Cr Br PR Er) (st : State Cr Br Er)
    (s : UserSelections Br) (hv : env.validate s = none)
    (hb : ¬ ∃ a b : String, s.MergeMessage = a ++ "\n\n" ++ b)
    (hp : s.WithWorkItemIDs = false) :
    (createHandler env s st).calls = st.calls ++
      [Call.CreatePullRequest st.creator s.SourceBranch s.TargetBranch
        s.MergeMessage s.MergeMessage s.WorkItems s.Squash]
    ∧ composeMessage s = (s.MergeMessage, s.MergeMessage)
    ∧ composeMessage { s with MergeMessage := "Title only" } = ("Title only", "Title only") := by
  have hc : composeMessage s = (s.MergeMessage, s.MergeMessage) := by
    rw [composeMessage_off s hp, splitMergeMessage_no_blank_line _ hb]
    simp
  refine ⟨?_, hc, ?_⟩
  · rw [createHandler_calls env st s hv, hc]
  · have hsplit : splitMergeMessage "Title only" = ("Title only", "") := by decide
    simp [composeMessage, hp, hsplit]

/-- C4: whatever the raw message, the work-item list and the prefix flag, the
create handler (validation passed) calls `CreatePullRequest` with a title that
is the split title after any prefixing and a description such that: when the
description is empty after the split, the description passed is the title
passed; and the description passed is never empty when the title passed is
non-empty. -/
theorem description_falls_back_to_title (env : Remote Cr Br PR Er) (st : State Cr Br Er)
    (s : UserSelections Br) (hv : env.validate s = none) :
    ∃ title description : String,
      (createHandler env s st).calls = st.calls ++
        [Call.CreatePullRequest st.creator s.SourceBranch s.TargetBranch
          title description s.WorkItems s.Squash]
      ∧ title =
          (if s.WithWorkItemIDs = true then
            prependWorkItemIDs (splitMergeMessage s.MergeMessage).1 s.WorkItems
          else (splitMergeMessage s.MergeMessage).1)
      ∧ ((splitMergeMessage s.MergeMessage).2 = "" → description = title)
      ∧ (title ≠ "" → description ≠ "") := by
  refine ⟨(composeMessage s).1, (composeMessage s).2, createHandler_calls env st s hv, ?_, ?_,
    composeMessage_snd_ne_empty s⟩
  · cases hp : s.WithWorkItemIDs <;> simp [composeMessage, hp]
  · intro hd
    cases hp : s.WithWorkItemIDs with
    | false => rw [composeMessage_off s hp]; simp [hd]
    | true => rw [composeMessage_on_empty s hp hd]

/-- C5: with work-item prefixing on and a non-empty description `d` from the split,
the create handler passes the title `prependWorkItemIDs title ids` and the
description `prependWorkItemIDs ("\n" ++ d) ids`; both start with the same
prefix text `prependWorkItemIDs "" ids`, which in the description is followed
by a newline and then `d` unchanged, and that prefix text holds no newline
when no id does, so it is the whole first line. With prefixing off the split
title and description are passed as they are (the title standing in for an
empty description). -/
theorem create_with_work_item_prefixes (env : Remote Cr Br PR Er) (st : State Cr Br Er)
    (s : UserSelections Br) (hv : env.validate s = none) :
    (s.WithWorkItemIDs = true → (splitMergeMessage s.MergeMessage).2 ≠ "" →
      (createHandler env s st).calls = st.calls ++
        [Call.CreatePullRequest st.creator s.SourceBranch s.TargetBranch
          (prependWorkItemIDs (splitMergeMessage s.MergeMessage).1 s.WorkItems)
          (prependWorkItemIDs ("\n" ++ (splitMergeMessage s.MergeMessage).2) s.WorkItems)
          s.WorkItems s.Squash]
      ∧ prependWorkItemIDs (splitMergeMessage s.MergeMessage).1 s.WorkItems =
          prependWorkItemIDs "" s.WorkItems ++ (splitMergeMessage s.MergeMessage).1
      ∧ prependWorkItemIDs ("\n" ++ (splitMergeMessage s.MergeMessage).2) s.WorkItems =
          prependWorkItemIDs "" s.WorkItems ++ "\n" ++ (splitMergeMessage s.MergeMessage).2
      ∧ ((∀ wi ∈ s.WorkItems, '\n' ∉ wi.data) →
          '\n' ∉ (prependWorkItemIDs "" s.WorkItems).data))
    ∧ (s.WithWorkItemIDs = false →
      (createHandler env s st).calls = st.calls ++
        [Call.CreatePullRequest st.creator s.SourceBranch s.TargetBranch
          (splitMergeMessage s.MergeMessage).1
          (if (splitMergeMessage s.MergeMessage).2 = "" then (splitMergeMessage s.MergeMessage).1
            else (splitMergeMessage s.MergeMessage).2)
          s.WorkItems s.Squash]) := by
  constructor
  · intro hp hd
    refine ⟨?_, prependWorkItemIDs_append _ _, ?_, prependWorkItemIDs_no_newline _⟩
    · rw [createHandler_calls env st s hv, composeMessage_on_nonempty s hp hd]
    · rw [prependWorkItemIDs_append, String.append_assoc]
  · intro hp
    rw [createHandler_calls env st s hv, composeMessage_off s hp]

/-- C6: for every raw merge message the title produced by the split contains no
blank line; splitting that title again gives the same title with an empty
description, which (prefixing off) falls back to that title; and splitting
once more changes nothing. -/
theorem splitMergeMessage_title_idempotent (raw : String) (s : UserSelections Br)
    (hs : s.MergeMessage = (splitMergeMessage raw).1) (hp : s.WithWorkItemIDs = false) :
    (¬ ∃ a b : String, (splitMergeMessage raw).1 = a ++ "\n\n" ++ b)
    ∧ splitMergeMessage (splitMergeMessage raw).1 = ((splitMergeMessage raw).1, "")
    ∧ composeMessage s = ((splitMergeMessage raw).1, (splitMergeMessage raw).1)
    ∧ splitMergeMessage (splitMergeMessage (splitMergeMessage raw).1).1 =
        splitMergeMessage (splitMergeMessage raw).1 := by
  have hno := splitMergeMessage_fst_no_blank_line raw
  have h1 := splitMergeMessage_no_blank_line _ hno
  refine ⟨hno, h1, ?_, ?_⟩
  · rw [composeMessage_off s hp, hs, h1]
    simp
  · rw [h1]
    exact h1

end ComposerClaims

/-- Witness of C3: `"Title only"` with prefixing off is submitted as title and as
description. -/
theorem create_without_blank_line_witness :
    sampleRemote.validate ⟨"dev", "main", "Title only", false, ["7"], false⟩ = none
    ∧ (¬ ∃ a b : String, "Title only" = a ++ "\n\n" ++ b)
    ∧ (createHandler sampleRemote ⟨"dev", "main", "Title only", false, ["7"], false⟩
        sampleState).calls = sampleState.calls ++
          [Call.CreatePullRequest (some 1) "dev" "main" "Title only" "Title only" ["7"] false] :=
  ⟨by decide, no_blank_line_of_index_none "Title only" (by decide),
    (create_without_blank_line sampleRemote sampleState
      ⟨"dev", "main", "Title only", false, ["7"], false⟩ (by decide)
      (no_blank_line_of_index_none "Title only" (by decide)) rfl).1⟩

/-- Witness of C4: `"Title only"` with prefixing on and ids `["1", "2"]`: the
description after the split is empty and the prefixed title is submitted for
both. -/
theorem description_falls_back_to_title_witness :
    sampleRemote.validate ⟨"dev", "main", "Title only", true, ["1", "2"], false⟩ = none
    ∧ (splitMergeMessage "Title only").2 = ""
    ∧ (createHandler sampleRemote ⟨"dev", "main", "Title only", true, ["1", "2"], false⟩
        sampleState).calls = sampleState.calls ++
          [Call.CreatePullRequest (some 1) "dev" "main" "#2 #1 Title only" "#2 #1 Title only"
            ["1", "2"] false]
    ∧ ∃ title description : String,
        (createHandler sampleRemote ⟨"dev", "main", "Title only", true, ["1", "2"], false⟩
          sampleState).calls = sampleState.calls ++
            [Call.CreatePullRequest (some 1) "dev" "main" title description ["1", "2"] false]
        ∧ title = "#2 #1 Title only"
        ∧ ((splitMergeMessage "Title only").2 = "" → description = title)
        ∧ (title ≠ "" → description ≠ "") :=
  ⟨by decide, by decide, by decide,
    description_falls_back_to_title sampleRemote sampleState
      ⟨"dev", "main", "Title only", true, ["1", "2"], false⟩ (by decide)⟩

/-- Witness of C5: `"Title\n\nBody"` with prefixing on and ids `["1", "2"]` is
submitted as `"#2 #1 Title"` and `"#2 #1 \nBody"`. -/
theorem create_with_work_item_prefixes_witness :
    sampleRemote.validate ⟨"dev", "main", "Title\n\nBody", true, ["1", "2"], false⟩ = none
    ∧ (splitMergeMessage "Title\n\nBody").2 ≠ ""
    ∧ (createHandler sampleRemote ⟨"dev", "main", "Title\n\nBody", true, ["1", "2"], false⟩
        sampleState).calls = sampleState.calls ++
          [Call.CreatePullRequest (some 1) "dev" "main" "#2 #1 Title" "#2 #1 \nBody"
            ["1", "2"] false] :=
  ⟨by decide, by decide,
    ((create_with_work_item_prefixes sampleRemote sampleState
      ⟨"dev", "main", "Title\n\nBody", true, ["1", "2"], false⟩ (by decide)).1
        rfl (by decide)).1⟩

/-- Witness of C6 at the raw message `"Title\n\nBody"`, whose title is `"Title"`. -/
theorem splitMergeMessage_title_idempotent_witness :
    (splitMergeMessage "Title\n\nBody").1 = "Title"
    ∧ splitMergeMessage "Title" = ("Title", "")
    ∧ composeMessage (⟨"dev", "main", "Title", false, [], false⟩ : UserSelections String) =
        ("Title", "Title") :=
  ⟨by decide,
    (splitMergeMessage_title_idempotent "Title\n\nBody"
      (⟨"dev", "main", "Title", false, [], false⟩ : UserSelections String)
      (by decide) rfl).2.1,
    (splitMergeMessage_title_idempotent "Title\n\nBody"
      (⟨"dev", "main", "Title", false, [], false⟩ : UserSelections String)
      (by decide) rfl).2.2.1⟩

/-! ## Coordinator: claims -/

section CoordinatorClaims

variable {Cr Br PR Er : Type}

/-- C7: when the selections fail validation, the create handler only reports the
text of the validation error to the UI (`ui.SetError`): it makes no remote call
(so no `CreatePullRequest`), prints nothing, sends nothing on `errChan` (no
terminal outcome), and leaves the current creator and merge message as they
were; a later create request with valid selections is submitted as usual. -/
theorem create_invalid_selections (env : Remote Cr Br PR Er) (st : State Cr Br Er)
    (s : UserSelections Br) (text : String) (hv : env.validate s = some text) :
    createHandler env s st = { st with ui := st.ui ++ [UIOp.SetError text] }
    ∧ (createHandler env s st).calls = st.calls
    ∧ (createHandler env s st).printed = st.printed
    ∧ (createHandler env s st).errChan = st.errChan
    ∧ (createHandler env s st).result = st.result
    ∧ (createHandler env s st).creator = st.creator
    ∧ (createHandler env s st).mergeMessage = st.mergeMessage
    ∧ (∀ s2 : UserSelections Br, env.validate s2 = none →
        (createHandler env s2 (createHandler env s st)).calls = st.calls ++
          [Call.CreatePullRequest st.creator s2.SourceBranch s2.TargetBranch
            (composeMessage s2).1 (composeMessage s2).2 s2.WorkItems s2.Squash]) := by
  have h : createHandler env s st = { st with ui := st.ui ++ [UIOp.SetError text] } := by
    simp only [createHandler, hv]
  refine ⟨h, ?_, ?_, ?_, ?_, ?_, ?_, ?_⟩
  · rw [h]
  · rw [h]
  · rw [h]
  · rw [h]; rfl
  · rw [h]
  · rw [h]
  · intro s2 hv2
    rw [createHandler_calls env _ s2 hv2, h]

/-- Witness of C7: selections with an empty target branch fail the validation
schema and only `SetError` reaches the UI. -/
theorem create_invalid_selections_witness :
    sampleRemote.validate ⟨"dev", "", "Title\n\nBody", true, ["1", "2"], false⟩ =
      some "TargetBranch is required"
    ∧ createHandler sampleRemote ⟨"dev", "", "Title\n\nBody", true, ["1", "2"], false⟩
        sampleState =
      { sampleState with ui := sampleState.ui ++ [UIOp.SetError "TargetBranch is required"] } :=
  ⟨by decide,
    (create_invalid_selections sampleRemote sampleState
      ⟨"dev", "", "Title\n\nBody", true, ["1", "2"], false⟩ "TargetBranch is required"
      (by decide)).1⟩

/-- C8: whenever the creation call returns a pull request, the URL of exactly that
pull request is printed, as success when the error is nil and as a warning when
it is not; this holds for the create handler of `createPrCommandInteractive`
and for the legacy `createPrCommand`, which also returns the error unchanged. -/
theorem pull_request_url_surfaced :
    (∀ (env : Remote Cr Br PR Er) (st : State Cr Br Er) (s : UserSelections Br)
        (pullrequest : PR) (err : Option Er),
      env.validate s = none →
      env.CreatePullRequest st.calls st.creator s.SourceBranch s.TargetBranch
        (composeMessage s).1 (composeMessage s).2 s.WorkItems s.Squash = (some pullrequest, err) →
      (createHandler env s st).printed = st.printed ++
        [match err with
         | none => Printed.Success (env.GetPullRequestURL pullrequest)
         | some _ => Printed.Warning (env.GetPullRequestURL pullrequest)])
    ∧ (∀ (env : LegacyRemote Cr PR Er) (flagRepository flagMessage message repository : String)
        (creator : Option Cr) (pullrequest : PR) (err : Option Er),
      env.NewAPI = none →
      env.NewClient = none →
      (if flagRepository = "" then env.RequestRepository else (flagRepository, none)) =
        (repository, none) →
      env.NewCreator repository = (creator, none) →
      env.Create creator (if message = "" then flagMessage else message) "" =
        (some pullrequest, err) →
      createPrCommand env flagRepository flagMessage message =
        ([match err with
          | none => Printed.Success (env.GetPullRequestURL pullrequest)
          | some _ => Printed.Warning (env.GetPullRequestURL pullrequest)], err)) := by
  constructor
  · intro env st s pullrequest err hv hc
    rw [createHandler_effect env st s (some pullrequest) err hv hc]
    cases err <;> rfl
  · intro env flagRepository flagMessage message repository creator pullrequest err
      hapi hclient hrepo hcreator hcreate
    simp only [createPrCommand, hapi, hclient, hrepo, hcreator, hcreate]

/-- Witness of C8: the sample submission with a squash merge returns pull request
`42` together with the error `"timeout"`; its URL is printed as a warning. The
legacy command prints the same URL as success when `Create` returns no error. -/
theorem pull_request_url_surfaced_witness :
    (createHandler sampleRemote ⟨"dev", "main", "Title\n\nBody", false, [], true⟩
      sampleState).printed = [Printed.Warning "https://svc/pr/42"]
    ∧ createPrCommand sampleLegacyRemote "" "" "Title" =
        ([Printed.Success "https://svc/pr/42"], none) :=
  ⟨(@pull_request_url_surfaced Nat String Nat String).1
      sampleRemote sampleState ⟨"dev", "main", "Title\n\nBody", false, [], true⟩ 42
      (some "timeout") (by decide) (by decide),
    (@pull_request_url_surfaced Nat String Nat String).2
      sampleLegacyRemote "" "" "Title" "repoB" (some 1) 42 none rfl rfl (by decide) (by decide)
      (by decide)⟩

/-- C9: after a create request that passes validation, what the handler sends on
`errChan` is exactly the error the creation call returned, and it is what the
caller receives when nothing was sent before. With no error the caller gets nil
(exit code 0) and a returned URL is printed as success; with an error and a
pull request the URL is printed as a warning and the error is delivered; with
an error and no pull request nothing is printed, the UI is not touched, and the
error is delivered. -/
theorem create_terminal_outcome (env : Remote Cr Br PR Er) (st : State Cr Br Er)
    (s : UserSelections Br) (pullrequest : Option PR) (err : Option Er)
    (hv : env.validate s = none)
    (hc : env.CreatePullRequest st.calls st.creator s.SourceBranch s.TargetBranch
      (composeMessage s).1 (composeMessage s).2 s.WorkItems s.Squash = (pullrequest, err)) :
    (createHandler env s st).errChan = st.errChan ++ [err]
    ∧ (st.errChan = [] → (createHandler env s st).result = some err)
    ∧ (exitCode err = 0 ↔ err = none)
    ∧ (err = none → ∀ p, pullrequest = some p →
        (createHandler env s st).printed =
          st.printed ++ [Printed.Success (env.GetPullRequestURL p)])
    ∧ (∀ e p, err = some e → pullrequest = some p →
        (createHandler env s st).printed =
          st.printed ++ [Printed.Warning (env.GetPullRequestURL p)])
    ∧ (pullrequest = none →
        (createHandler env s st).printed = st.printed ∧ (createHandler env s st).ui = st.ui) := by
  rw [createHandler_effect env st s pullrequest err hv hc]
  refine ⟨rfl, ?_, ?_, ?_, ?_, ?_⟩
  · intro h0
    simp [State.result, h0]
  · cases err <;> simp [exitCode]
  · intro he p hp
    subst he hp
    rfl
  · intro e p he hp
    subst he hp
    rfl
  · intro hp
    subst hp
    simp

/-- Witness of C9: partial failure on the sample submission with a squash merge. -/
theorem create_terminal_outcome_witness :
    sampleRemote.validate ⟨"dev", "main", "Title\n\nBody", false, [], true⟩ = none
    ∧ (createHandler sampleRemote ⟨"dev", "main", "Title\n\nBody", false, [], true⟩
        sampleState).errChan = [some "timeout"]
    ∧ (createHandler sampleRemote ⟨"dev", "main", "Title\n\nBody", false, [], true⟩
        sampleState).result = some (some "timeout") :=
  ⟨by decide,
    (create_terminal_outcome sampleRemote sampleState
      ⟨"dev", "main", "Title\n\nBody", false, [], true⟩ (some 42) (some "timeout")
      (by decide) (by decide)).1,
    (create_terminal_outcome sampleRemote sampleState
      ⟨"dev", "main", "Title\n\nBody", false, [], true⟩ (some 42) (some "timeout")
      (by decide) (by decide)).2.1 rfl⟩

/-- C10, as the code has it: when opening the creator fails, the repository change
handler makes no further remote call (no branch-candidates lookup), calls no
method of the UI (no branches are pushed and no error is shown in it), stores
whatever creator `NewCreator` returned, and sends the error on `errChan`, where
it is the outcome of the run when nothing was sent before. -/
theorem repositoryChange_open_failure (env : Remote Cr Br PR Er) (st : State Cr Br Er)
    (repository : String) (creator : Option Cr) (err : Er)
    (h : env.NewCreator st.calls repository = (creator, some err)) :
    repositoryChangeHandler env repository st =
      { st with
        creator := creator
        calls := st.calls ++ [Call.NewCreator repository]
        errChan := st.errChan ++ [some err] }
    ∧ (repositoryChangeHandler env repository st).calls =
        st.calls ++ [Call.NewCreator repository]
    ∧ (repositoryChangeHandler env repository st).ui = st.ui
    ∧ (st.errChan = [] →
        (repositoryChangeHandler env repository st).result = some (some err))
    ∧ exitCode (some err) = 1 := by
  have heq : repositoryChangeHandler env repository st =
      { st with
        creator := creator
        calls := st.calls ++ [Call.NewCreator repository]
        errChan := st.errChan ++ [some err] } := by
    simp only [repositoryChangeHandler, h, State.send]
  refine ⟨heq, ?_, ?_, ?_, rfl⟩
  · rw [heq]
  · rw [heq]
  · intro h0
    rw [heq]
    simp [State.result, h0]

/-- Witness of C10 (amended): repository `"repoA"` cannot be opened. -/
theorem repositoryChange_open_failure_witness :
    sampleRemote.NewCreator sampleInit.calls "repoA" = (none, some "cannot open repoA")
    ∧ repositoryChangeHandler sampleRemote "repoA" sampleInit =
        { sampleInit with
          creator := none
          calls := [Call.NewCreator "repoA"]
          errChan := [some "cannot open repoA"] } :=
  ⟨by decide,
    (repositoryChange_open_failure sampleRemote sampleInit "repoA" none "cannot open repoA"
      (by decide)).1⟩

/-- Counterexample to C10 as stated: repository `"repoA"` cannot be opened, and
after the repository change handler the UI has received nothing but the
initial list of repositories; no `SetError` puts it in an error-displayed state. -/
theorem repositoryChange_failure_not_displayed :
    sampleRemote.NewCreator sampleInit.calls "repoA" = (none, some "cannot open repoA")
    ∧ (repositoryChangeHandler sampleRemote "repoA" sampleInit).ui =
        [UIOp.SetRepositories ["repoA", "repoB"]]
    ∧ ¬ ∃ text : String,
        UIOp.SetError text ∈ (repositoryChangeHandler sampleRemote "repoA" sampleInit).ui := by
  have hui : (repositoryChangeHandler sampleRemote "repoA" sampleInit).ui =
      [UIOp.SetRepositories ["repoA", "repoB"]] := by decide
  refine ⟨by decide, hui, ?_⟩
  rintro ⟨text, hmem⟩
  rw [hui] at hmem
  simp at hmem

end CoordinatorClaims

/-! ## Auxiliary facts about the event handlers and runs -/

section RunFacts

variable {Cr Br PR Er : Type}

theorem run_nil (env : Remote Cr Br PR Er) (st : State Cr Br Er) : run env st [] = st := rfl

theorem run_cons (env : Remote Cr Br PR Er) (st : State Cr Br Er) (e : Event Br Er)
    (events : List (Event Br Er)) :
    run env st (e :: events) = run env (step env st e) events := rfl

theorem run_append (env : Remote Cr Br PR Er) (st : State Cr Br Er)
    (pre post : List (Event Br Er)) :
    run env st (pre ++ post) = run env (run env st pre) post := by
  simp [run, List.foldl_append]

theorem step_errChan (env : Remote Cr Br PR Er) (st : State Cr Br Er) (e : Event Br Er) :
    ∃ sent : List (Option Er),
      (step env st e).errChan = st.errChan ++ sent ∧ sent.length ≤ 1 := by
  cases e with
  | Cancel => exact ⟨[none], rfl, by simp⟩
  | Err err => exact ⟨[some err], rfl, by simp⟩
  | RepositoryChange repository =>
    simp only [step, repositoryChangeHandler, State.send]
    split
    · exact ⟨[_], rfl, by simp⟩
    · split
      · exact ⟨[_], rfl, by simp⟩
      · exact ⟨[], by simp, by simp⟩
  | TargetBranchChange targetBranch =>
    simp only [step, targetBranchChangeHandler, State.send]
    split
    · split
      · exact ⟨[_], rfl, by simp⟩
      · exact ⟨[], by simp, by simp⟩
    · exact ⟨[], by simp, by simp⟩
  | SourceBranchChange sourceBranch => exact ⟨[], by simp [step, sourceBranchChangeHandler], by simp⟩
  | Create s =>
    simp only [step, createHandler, State.send]
    split
    · exact ⟨[], by simp, by simp⟩
    · split
      · exact ⟨[_], rfl, by simp⟩
      · exact ⟨[_], rfl, by simp⟩

theorem step_printed (env : Remote Cr Br PR Er) (st : State Cr Br Er) (e : Event Br Er) :
    ∃ lines : List Printed, (step env st e).printed = st.printed ++ lines := by
  cases e with
  | Cancel => exact ⟨[], by simp [step, cancelHandler, State.send]⟩
  | Err err => exact ⟨[], by simp [step, errHandler, State.send]⟩
  | RepositoryChange repository =>
    simp only [step, repositoryChangeHandler, State.send]
    split
    · exact ⟨[], by simp⟩
    · split <;> exact ⟨[], by simp⟩
  | TargetBranchChange targetBranch =>
    simp only [step, targetBranchChangeHandler, State.send]
    split
    · split <;> exact ⟨[], by simp⟩
    · exact ⟨[], by simp⟩
  | SourceBranchChange sourceBranch => exact ⟨[], by simp [step, sourceBranchChangeHandler]⟩
  | Create s =>
    simp only [step, createHandler, State.send]
    split
    · exact ⟨[], by simp⟩
    · split
      · exact ⟨[_], rfl⟩
      · exact ⟨[], by simp⟩

theorem step_targetBranchHandler (env : Remote Cr Br PR Er) (st : State Cr Br Er)
    (e : Event Br Er) : (step env st e).targetBranchHandler = st.targetBranchHandler := by
  cases e with
  | Cancel => rfl
  | Err err => rfl
  | RepositoryChange repository =>
    simp only [step, repositoryChangeHandler, State.send]
    split
    · rfl
    · split <;> rfl
  | TargetBranchChange targetBranch =>
    simp only [step, targetBranchChangeHandler, State.send]
    split
    · split <;> rfl
    · rfl
  | SourceBranchChange sourceBranch => rfl
  | Create s =>
    simp only [step, createHandler, State.send]
    split
    · rfl
    · split <;> rfl

theorem step_without_targetBranchHandler (env : Remote Cr Br PR Er) (st : State Cr Br Er)
    (e : Event Br Er) (h : st.targetBranchHandler = false) :
    (step env st e).calls.filter Call.isSuggestMergeMessage =
        st.calls.filter Call.isSuggestMergeMessage
    ∧ (step env st e).ui.filter UIOp.isSetMergeMessage = st.ui.filter UIOp.isSetMergeMessage
    ∧ (step env st e).mergeMessage = st.mergeMessage := by
  cases e with
  | Cancel => exact ⟨rfl, rfl, rfl⟩
  | Err err => exact ⟨rfl, rfl, rfl⟩
  | RepositoryChange repository =>
    simp only [step, repositoryChangeHandler, State.send]
    split
    · simp [List.filter_append, Call.isSuggestMergeMessage]
    · split <;> simp [List.filter_append, Call.isSuggestMergeMessage, UIOp.isSetMergeMessage]
  | TargetBranchChange targetBranch => simp [step, h]
  | SourceBranchChange sourceBranch =>
    simp [step, sourceBranchChangeHandler, List.filter_append, Call.isSuggestMergeMessage,
      UIOp.isSetMergeMessage]
  | Create s =>
    simp only [step, createHandler, State.send]
    split
    · simp [List.filter_append, UIOp.isSetMergeMessage]
    · split <;> simp [List.filter_append, Call.isSuggestMergeMessage, UIOp.isSetMergeMessage]

theorem step_mergeMessage_of_not_target (env : Remote Cr Br PR Er) (st : State Cr Br Er)
    (e : Event Br Er) (h : e.isTargetBranchChange = false) :
    (step env st e).mergeMessage = st.mergeMessage := by
  cases e with
  | Cancel => rfl
  | Err err => rfl
  | RepositoryChange repository =>
    simp only [step, repositoryChangeHandler, State.send]
    split
    · rfl
    · split <;> rfl
  | TargetBranchChange targetBranch => simp [Event.isTargetBranchChange] at h
  | SourceBranchChange sourceBranch => rfl
  | Create s =>
    simp only [step, createHandler, State.send]
    split
    · rfl
    · split <;> rfl

theorem run_errChan (env : Remote Cr Br PR Er) (events : List (Event Br Er)) :
    ∀ st : State Cr Br Er, ∃ sent : List (Option Er),
      (run env st events).errChan = st.errChan ++ sent ∧ sent.length ≤ events.length := by
  induction events with
  | nil => intro st; exact ⟨[], by simp [run_nil], by simp⟩
  | cons e events ih =>
    intro st
    obtain ⟨sent1, h1, hl1⟩ := step_errChan env st e
    obtain ⟨sent2, h2, hl2⟩ := ih (step env st e)
    refine ⟨sent1 ++ sent2, ?_, ?_⟩
    · rw [run_cons, h2, h1, List.append_assoc]
    · simp only [List.length_append, List.length_cons]
      omega

theorem run_result (env : Remote Cr Br PR Er) (events : List (Event Br Er))
    (st : State Cr Br Er) (r : Option Er) (h : st.result = some r) :
    (run env st events).result = some r := by
  obtain ⟨sent, hs, _⟩ := run_errChan env events st
  simp only [State.result] at h ⊢
  rw [hs]
  cases hst : st.errChan with
  | nil => simp [hst] at h
  | cons v rest =>
    rw [hst] at h
    simpa using h

theorem run_printed (env : Remote Cr Br PR Er) (events : List (Event Br Er)) :
    ∀ st : State Cr Br Er, ∃ lines : List Printed,
      (run env st events).printed = st.printed ++ lines := by
  induction events with
  | nil => intro st; exact ⟨[], by simp [run_nil]⟩
  | cons e events ih =>
    intro st
    obtain ⟨l1, h1⟩ := step_printed env st e
    obtain ⟨l2, h2⟩ := ih (step env st e)
    exact ⟨l1 ++ l2, by rw [run_cons, h2, h1, List.append_assoc]⟩

theorem run_targetBranchHandler (env : Remote Cr Br PR Er) (events : List (Event Br Er)) :
    ∀ st : State Cr Br Er,
      (run env st events).targetBranchHandler = st.targetBranchHandler := by
  induction events with
  | nil => intro st; rfl
  | cons e events ih =>
    intro st
    rw [run_cons, ih, step_targetBranchHandler]

theorem run_without_targetBranchHandler (env : Remote Cr Br PR Er)
    (events : List (Event Br Er)) :
    ∀ st : State Cr Br Er, st.targetBranchHandler = false →
      (run env st events).calls.filter Call.isSuggestMergeMessage =
          st.calls.filter Call.isSuggestMergeMessage
      ∧ (run env st events).ui.filter UIOp.isSetMergeMessage =
          st.ui.filter UIOp.isSetMergeMessage
      ∧ (run env st events).mergeMessage = st.mergeMessage := by
  induction events with
  | nil => intro st _; exact ⟨rfl, rfl, rfl⟩
  | cons e events ih =>
    intro st h
    obtain ⟨h1, h2, h3⟩ := step_without_targetBranchHandler env st e h
    have h' : (step env st e).targetBranchHandler = false := by
      rw [step_targetBranchHandler, h]
    obtain ⟨g1, g2, g3⟩ := ih (step env st e) h'
    rw [run_cons]
    exact ⟨g1.trans h1, g2.trans h2, g3.trans h3⟩

theorem run_mergeMessage_of_no_target (env : Remote Cr Br PR Er)
    (events : List (Event Br Er)) :
    ∀ st : State Cr Br Er, (∀ e ∈ events, e.isTargetBranchChange = false) →
      (run env st events).mergeMessage = st.mergeMessage := by
  induction events with
  | nil => intro st _; rfl
  | cons e events ih =>
    intro st h
    rw [run_cons, ih (step env st e) (fun e' he' => h e' (List.mem_cons_of_mem _ he')),
      step_mergeMessage_of_not_target env st e (h e (List.mem_cons_self _ _))]

end RunFacts

/-! ## Termination of a run: claims -/

section TerminationClaims

variable {Cr Br PR Er : Type}

/-- C11, as the code has it: the caller reads the result channel once and gets the
first value sent on it; once an outcome `r` has been written, no later event
changes what the caller gets. The handlers are not guarded, though: after `r`
a later cancel event, error event, repository change that fails (to open the
creator or to list the branches), target branch change that fails (when its
handler is registered) and create request that passes validation each still
attempt a further send. Every event makes its handler attempt at most one
send, and the sends of a run only add to those already made. -/
theorem first_outcome_is_final (env : Remote Cr Br PR Er) (st : State Cr Br Er)
    (events : List (Event Br Er)) (r : Option Er) (h : st.result = some r) :
    (run env st events).result = some r
    ∧ (∃ sent : List (Option Er),
        (run env st events).errChan = st.errChan ++ sent ∧ sent.length ≤ events.length)
    ∧ (step env st Event.Cancel).errChan = st.errChan ++ [none]
    ∧ (∀ err : Er, (step env st (Event.Err err)).errChan = st.errChan ++ [some err])
    ∧ (∀ e : Event Br Er, (step env st e).result = some r)
    ∧ (∀ (repository : String) (creator : Option Cr) (err : Er),
        env.NewCreator st.calls repository = (creator, some err) →
        (step env st (Event.RepositoryChange repository)).errChan = st.errChan ++ [some err])
    ∧ (∀ (repository : String) (creator : Option Cr) (sources targets : List Br) (err : Er),
        env.NewCreator st.calls repository = (creator, none) →
        env.GetBranchCandidates (st.calls ++ [Call.NewCreator repository]) creator =
          (sources, targets, some err) →
        (step env st (Event.RepositoryChange repository)).errChan = st.errChan ++ [some err])
    ∧ (∀ (targetBranch : Br) (returned : String) (err : Er),
        st.targetBranchHandler = true →
        env.SuggestMergeMessage st.calls st.creator targetBranch = (returned, some err) →
        (step env st (Event.TargetBranchChange targetBranch)).errChan =
          st.errChan ++ [some err])
    ∧ (∀ (s : UserSelections Br) (pullrequest : Option PR) (err : Option Er),
        env.validate s = none →
        env.CreatePullRequest st.calls st.creator s.SourceBranch s.TargetBranch
          (composeMessage s).1 (composeMessage s).2 s.WorkItems s.Squash = (pullrequest, err) →
        (step env st (Event.Create s)).errChan = st.errChan ++ [err]) := by
  refine ⟨run_result env events st r h, run_errChan env events st, rfl, fun _ => rfl, ?_,
    ?_, ?_, ?_, ?_⟩
  · intro e
    exact run_result env [e] st r h
  · intro repository creator err hopen
    simp [step, repositoryChangeHandler, hopen, State.send]
  · intro repository creator sources targets err hopen hb
    simp [step, repositoryChangeHandler, hopen, hb, State.send]
  · intro targetBranch returned err hth hs
    simp [step, hth, targetBranchChangeHandler, hs, State.send]
  · intro s pullrequest err hv hc
    simp only [step]
    rw [createHandler_effect env st s pullrequest err hv hc]

/-- Witness of C11 (amended): after the UI error `"ui failure"` was sent, a cancel
event and a create request leave the result as it is, although the create
request, which passes validation, attempts a send of its own. -/
theorem first_outcome_is_final_witness :
    (errHandler "ui failure" sampleState).result = some (some "ui failure")
    ∧ (run sampleRemote (errHandler "ui failure" sampleState)
        [Event.Cancel, Event.Create ⟨"dev", "main", "Title", false, [], false⟩]).result =
      some (some "ui failure")
    ∧ (step sampleRemote (errHandler "ui failure" sampleState)
        (Event.Create ⟨"dev", "main", "Title", false, [], false⟩)).errChan =
      [some "ui failure", none] :=
  ⟨rfl,
    (first_outcome_is_final sampleRemote (errHandler "ui failure" sampleState)
      [Event.Cancel, Event.Create ⟨"dev", "main", "Title", false, [], false⟩]
      (some "ui failure") rfl).1,
    (first_outcome_is_final sampleRemote (errHandler "ui failure" sampleState)
      [Event.Cancel, Event.Create ⟨"dev", "main", "Title", false, [], false⟩]
      (some "ui failure") rfl).2.2.2.2.2.2.2.2
        ⟨"dev", "main", "Title", false, [], false⟩ (some 42) none (by decide) (by decide)⟩

/-- Counterexample to C11 as stated: after the error handler has written the
outcome `"ui failure"`, the cancel handler attempts a second send; two values
are sent on the result channel in this run. -/
theorem second_send_attempted :
    (run sampleRemote sampleInit [Event.Err "ui failure"]).errChan = [some "ui failure"]
    ∧ (run sampleRemote sampleInit [Event.Err "ui failure", Event.Cancel]).errChan =
        [some "ui failure", none]
    ∧ (run sampleRemote sampleInit [Event.Err "ui failure", Event.Cancel]).errChan.length ≠ 1 := by
  refine ⟨by decide, by decide, by decide⟩

/-- C12: when a create request arrives while nothing has been sent yet, passes
validation, and its submission returns a pull request with no error, then
whatever events follow, a cancellation among them included, the caller gets the
nil error of the submission (exit code 0) and the URL of the pull request
stays printed as success; the cancellation does not change the result. -/
theorem create_success_then_cancel (env : Remote Cr Br PR Er) (st : State Cr Br Er)
    (s : UserSelections Br) (p : PR) (mid post : List (Event Br Er))
    (h0 : st.errChan = []) (hv : env.validate s = none)
    (hc : env.CreatePullRequest st.calls st.creator s.SourceBranch s.TargetBranch
      (composeMessage s).1 (composeMessage s).2 s.WorkItems s.Squash = (some p, none)) :
    (step env st (Event.Create s)).result = some none
    ∧ (step env st (Event.Create s)).printed =
        st.printed ++ [Printed.Success (env.GetPullRequestURL p)]
    ∧ (run env st (Event.Create s :: (mid ++ Event.Cancel :: post))).result = some none
    ∧ Printed.Success (env.GetPullRequestURL p) ∈
        (run env st (Event.Create s :: (mid ++ Event.Cancel :: post))).printed
    ∧ (run env st (Event.Create s :: (mid ++ [Event.Cancel]))).result =
        (run env st (Event.Create s :: mid)).result
    ∧ exitCode (none : Option Er) = 0 := by
  have heff := createHandler_effect env st s (some p) none hv hc
  have hres : (step env st (Event.Create s)).result = some none := by
    simp only [step, heff, State.result, h0]
    rfl
  have hpr : (step env st (Event.Create s)).printed =
      st.printed ++ [Printed.Success (env.GetPullRequestURL p)] := by
    simp only [step, heff]
  refine ⟨hres, hpr, ?_, ?_, ?_, rfl⟩
  · rw [run_cons]
    exact run_result env _ _ none hres
  · rw [run_cons]
    obtain ⟨lines, hl⟩ := run_printed env (mid ++ Event.Cancel :: post) (step env st (Event.Create s))
    rw [hl, hpr]
    simp
  · rw [run_cons, run_cons, run_result env _ _ none hres, run_result env _ _ none hres]

/-- Witness of C12: the sample submission succeeds, then the source branch changes
and the user cancels. -/
theorem create_success_then_cancel_witness :
    sampleState.errChan = []
    ∧ (run sampleRemote sampleState
        [Event.Create ⟨"dev", "main", "Title\n\nBody", false, [], false⟩,
          Event.SourceBranchChange "dev", Event.Cancel]).result = some none
    ∧ Printed.Success "https://svc/pr/42" ∈
        (run sampleRemote sampleState
          [Event.Create ⟨"dev", "main", "Title\n\nBody", false, [], false⟩,
            Event.SourceBranchChange "dev", Event.Cancel]).printed :=
  ⟨rfl,
    (create_success_then_cancel sampleRemote sampleState
      ⟨"dev", "main", "Title\n\nBody", false, [], false⟩ 42
      [Event.SourceBranchChange "dev"] [] rfl (by decide) (by decide)).2.2.1,
    (create_success_then_cancel sampleRemote sampleState
      ⟨"dev", "main", "Title\n\nBody", false, [], false⟩ 42
      [Event.SourceBranchChange "dev"] [] rfl (by decide) (by decide)).2.2.2.1⟩

/-- C13: a cancellation that arrives while nothing has been sent yet sends nil,
which is then the result of the run whatever follows: exit code 0, where any
error gives exit code 1. The cancel handler makes no remote call, so no
pull request is created by it, and it changes nothing else. -/
theorem cancel_first (env : Remote Cr Br PR Er) (st : State Cr Br Er)
    (later : List (Event Br Er)) (h0 : st.errChan = []) :
    step env st Event.Cancel = { st with errChan := [none] }
    ∧ (step env st Event.Cancel).result = some none
    ∧ (run env st (Event.Cancel :: later)).result = some none
    ∧ exitCode (none : Option Er) = 0
    ∧ (∀ err : Er, exitCode (some err) = 1)
    ∧ (step env st Event.Cancel).calls = st.calls
    ∧ (step env st Event.Cancel).calls.filter Call.isCreatePullRequest =
        st.calls.filter Call.isCreatePullRequest := by
  have hstep : step env st Event.Cancel = { st with errChan := [none] } := by
    simp [step, cancelHandler, State.send, h0]
  have hres : (step env st Event.Cancel).result = some none := by
    rw [hstep]
    rfl
  refine ⟨hstep, hres, ?_, rfl, fun _ => rfl, rfl, rfl⟩
  rw [run_cons]
  exact run_result env later _ none hres

/-- Witness of C13: the user cancels right after the branches were loaded, and a
create request that follows does not change the result. -/
theorem cancel_first_witness :
    sampleState.errChan = []
    ∧ (run sampleRemote sampleState
        [Event.Cancel, Event.Create ⟨"dev", "main", "Title", false, [], true⟩]).result =
      some none :=
  ⟨rfl,
    (cancel_first sampleRemote sampleState
      [Event.Create ⟨"dev", "main", "Title", false, [], true⟩] rfl).2.2.1⟩

end TerminationClaims

/-! ## Work-item recognizer: claim -/

theorem stripHash_hash_digits (digits : List Char) (hd : ∀ c ∈ digits, c.isDigit = true) :
    stripHash digits = digits := by
  cases digits with
  | nil => rfl
  | cons c cs =>
    have hc : c.isDigit = true := hd c (List.mem_cons_self _ _)
    have hne : c ≠ '#' := by
      intro h
      rw [h] at hc
      exact absurd hc (by decide)
    unfold stripHash
    split
    · rename_i heq
      simp only [List.cons.injEq] at heq
      exact absurd heq.1 hne
    · rfl

/-- C14: the `Validate` closure of `ConfirmWorkItems` answers nil exactly when the
match against `workItemsRegexp` holds without error, and `"invalid input"`
otherwise. With the recognizer of the spec, every non-empty run of digits,
with or without one leading `#`, is accepted, and every input that still
holds a non-digit character after one leading `#` is stripped is rejected
with `"invalid input"`. -/
theorem Validate_work_items {Er : Type} (MatchString : String → Bool × Option Er)
    (input digits : String) (hne : digits ≠ "") (hd : ∀ c ∈ digits.data, c.isDigit = true) :
    (Validate MatchString input = none ↔ MatchString input = (true, none))
    ∧ (Validate MatchString input ≠ none → Validate MatchString input = some "invalid input")
    ∧ Validate matchWorkItemsRegexp digits = none
    ∧ Validate matchWorkItemsRegexp ("#" ++ digits) = none
    ∧ ((∃ c ∈ stripHash input.data, c.isDigit = false) →
        Validate matchWorkItemsRegexp input = some "invalid input") := by
  have hnil : digits.data ≠ [] := by
    intro h
    apply hne
    exact String.ext h
  have hall : digits.data.all Char.isDigit = true := by
    simpa [List.all_eq_true] using hd
  refine ⟨?_, ?_, ?_, ?_, ?_⟩
  · rcases hm : MatchString input with ⟨m, err⟩
    cases m <;> cases err <;> simp [Validate, hm]
  · rcases hm : MatchString input with ⟨m, err⟩
    cases m <;> cases err <;> simp [Validate, hm]
  · simp only [Validate, matchWorkItemsRegexp, stripHash_hash_digits digits.data hd, hall]
    cases hdd : digits.data with
    | nil => exact absurd hdd hnil
    | cons c cs => simp
  · have hdata : ("#" ++ digits).data = '#' :: digits.data := by
      simp [String.data_append]
    simp only [Validate, matchWorkItemsRegexp, hdata, stripHash, hall]
    cases hdd : digits.data with
    | nil => exact absurd hdd hnil
    | cons c cs => simp
  · rintro ⟨c, hc, hnd⟩
    have hnot : (stripHash input.data).all Char.isDigit = false := by
      rw [List.all_eq_false]
      exact ⟨c, hc, by simp [hnd]⟩
    simp [Validate, matchWorkItemsRegexp, hnot]

/-- Witness of C14: `"#123"` and `"123"` are accepted, `"12a"` is rejected. -/
theorem Validate_work_items_witness :
    Validate matchWorkItemsRegexp "123" = none
    ∧ Validate matchWorkItemsRegexp "#123" = none
    ∧ Validate matchWorkItemsRegexp "12a" = some "invalid input" :=
  ⟨(@Validate_work_items String matchWorkItemsRegexp "12a" "123" (by decide) (by decide)).2.2.1,
    (@Validate_work_items String matchWorkItemsRegexp "12a" "123" (by decide) (by decide)).2.2.2.1,
    (@Validate_work_items String matchWorkItemsRegexp "12a" "123" (by decide) (by decide)).2.2.2.2
      ⟨'a', by decide, by decide⟩⟩

/-- The prompt of `ConfirmWorkItems` starts from `strings.Join(values, ", ")`
(uipromptkit.go:68); for two ids that text holds a comma and a blank, which
the recognizer of the spec rejects. -/
theorem Validate_joined_ids_rejected :
    Validate matchWorkItemsRegexp (", ".intercalate ["1", "2"]) = some "invalid input" := by
  decide

/-! ## Repository, target-branch and source-branch changes: claims -/

section ChangeClaims

variable {Cr Br PR Er : Type}

/-- C15: when the creator opens, the repository change handler asks it for the
branch candidates. If that fails, the error is sent on `errChan` (it is the
outcome of the run when nothing was sent before) and the UI receives nothing;
if it succeeds, the UI receives the sources through `SetSourceBranches` and
the targets through `SetTargetBranches`, as returned, and nothing is sent. -/
theorem repositoryChange_branch_candidates (env : Remote Cr Br PR Er) (st : State Cr Br Er)
    (repository : String) (creator : Option Cr) (sources targets : List Br) (err : Option Er)
    (hopen : env.NewCreator st.calls repository = (creator, none))
    (hb : env.GetBranchCandidates (st.calls ++ [Call.NewCreator repository]) creator =
      (sources, targets, err)) :
    (repositoryChangeHandler env repository st).calls =
        st.calls ++ [Call.NewCreator repository, Call.GetBranchCandidates creator]
    ∧ (repositoryChangeHandler env repository st).creator = creator
    ∧ (∀ e : Er, err = some e →
        (repositoryChangeHandler env repository st).errChan = st.errChan ++ [some e]
        ∧ (repositoryChangeHandler env repository st).ui = st.ui
        ∧ (st.errChan = [] →
            (repositoryChangeHandler env repository st).result = some (some e)))
    ∧ (err = none →
        (repositoryChangeHandler env repository st).ui =
          st.ui ++ [UIOp.SetSourceBranches sources, UIOp.SetTargetBranches targets]
        ∧ (repositoryChangeHandler env repository st).errChan = st.errChan
        ∧ (repositoryChangeHandler env repository st).result = st.result) := by
  cases err with
  | some e =>
    have heq : repositoryChangeHandler env repository st =
        { st with
          creator := creator
          calls := st.calls ++ [Call.NewCreator repository, Call.GetBranchCandidates creator]
          errChan := st.errChan ++ [some e] } := by
      simp [repositoryChangeHandler, hopen, hb, State.send]
    rw [heq]
    refine ⟨rfl, rfl, ?_, ?_⟩
    · intro e' he'
      cases he'
      refine ⟨rfl, rfl, ?_⟩
      intro h0
      simp [State.result, h0]
    · intro h
      cases h
  | none =>
    have heq : repositoryChangeHandler env repository st =
        { st with
          creator := creator
          calls := st.calls ++ [Call.NewCreator repository, Call.GetBranchCandidates creator]
          ui := st.ui ++ [UIOp.SetSourceBranches sources, UIOp.SetTargetBranches targets] } := by
      simp [repositoryChangeHandler, hopen, hb]
    rw [heq]
    refine ⟨rfl, rfl, ?_, ?_⟩
    · intro e' he'
      cases he'
    · intro _
      exact ⟨rfl, rfl, rfl⟩

/-- Witness of C15: repository `"repoB"` opens and lists `dev` and `main`; with the
failing collaborators the branch lookup fails and its error ends the run. -/
theorem repositoryChange_branch_candidates_witness :
    (repositoryChangeHandler sampleRemote "repoB" sampleInit).ui =
        [UIOp.SetRepositories ["repoA", "repoB"], UIOp.SetSourceBranches ["dev"],
          UIOp.SetTargetBranches ["main"]]
    ∧ (repositoryChangeHandler sampleRemote "repoB" sampleInit).errChan = []
    ∧ (repositoryChangeHandler sampleFailingRemote "repoB" sampleInit).errChan =
        [some "cannot list branches"]
    ∧ (repositoryChangeHandler sampleFailingRemote "repoB" sampleInit).ui =
        [UIOp.SetRepositories ["repoA", "repoB"]] :=
  ⟨((repositoryChange_branch_candidates sampleRemote sampleInit "repoB" (some 1)
      ["dev"] ["main"] none (by decide) (by decide)).2.2.2 rfl).1,
    ((repositoryChange_branch_candidates sampleRemote sampleInit "repoB" (some 1)
      ["dev"] ["main"] none (by decide) (by decide)).2.2.2 rfl).2.1,
    ((repositoryChange_branch_candidates sampleFailingRemote sampleInit "repoB" (some 1)
      [] [] (some "cannot list branches") (by decide) (by decide)).2.2.1
        "cannot list branches" rfl).1,
    ((repositoryChange_branch_candidates sampleFailingRemote sampleInit "repoB" (some 1)
      [] [] (some "cannot list branches") (by decide) (by decide)).2.2.1
        "cannot list branches" rfl).2.1⟩

theorem initState_setMergeMessage (flagMessage flagRepository : String)
    (repositories : List String) (mergeMessage : String)
    (hm : (if mergeMessage = "" then flagMessage else mergeMessage) ≠ "") :
    (initState flagMessage flagRepository repositories mergeMessage :
        State Cr Br Er).ui.filter UIOp.isSetMergeMessage =
      [UIOp.SetMergeMessage (if mergeMessage = "" then flagMessage else mergeMessage)] := by
  have hsel : ∀ selected : List (UIOp Br),
      (selected = [UIOp.SetRepository flagRepository] ∨ selected = []) →
      ([UIOp.SetMergeMessage (if mergeMessage = "" then flagMessage else mergeMessage)] ++
          [UIOp.SetRepositories repositories] ++ selected).filter UIOp.isSetMergeMessage =
        [UIOp.SetMergeMessage (if mergeMessage = "" then flagMessage else mergeMessage)] := by
    intro selected h
    rcases h with h | h <;> rw [h] <;> rfl
  simp only [initState, ne_eq, hm, not_false_eq_true, if_true]
  apply hsel
  split
  · exact Or.inl rfl
  · exact Or.inr rfl

/-- C16: when the argument or, failing that, the flag gives a non-empty message, that
message is the only one ever passed to `ui.SetMergeMessage`, no event makes a
`SuggestMergeMessage` call, a target branch change does nothing, and the
current message stays the one given. When both are empty, every target branch
change calls `SuggestMergeMessage` for that target on the current creator; on
success the returned message is passed to `ui.SetMergeMessage` and becomes
the current message; on failure the error is sent on `errChan` (the outcome
of the run when nothing was sent before) and the UI receives nothing. -/
theorem merge_message_suggestion (env : Remote Cr Br PR Er)
    (flagMessage flagRepository : String) (repositories : List String) (mergeMessage : String)
    (events : List (Event Br Er)) (targetBranch : Br) (st : State Cr Br Er)
    (hst : st = run env (initState flagMessage flagRepository repositories mergeMessage) events) :
    ((if mergeMessage = "" then flagMessage else mergeMessage) ≠ "" →
      st.ui.filter UIOp.isSetMergeMessage =
          [UIOp.SetMergeMessage (if mergeMessage = "" then flagMessage else mergeMessage)]
      ∧ st.calls.filter Call.isSuggestMergeMessage = []
      ∧ st.mergeMessage = (if mergeMessage = "" then flagMessage else mergeMessage)
      ∧ step env st (Event.TargetBranchChange targetBranch) = st)
    ∧ (mergeMessage = "" → flagMessage = "" →
      (step env st (Event.TargetBranchChange targetBranch)).calls =
          st.calls ++ [Call.SuggestMergeMessage st.creator targetBranch]
      ∧ (∀ suggested : String,
          env.SuggestMergeMessage st.calls st.creator targetBranch = (suggested, none) →
          step env st (Event.TargetBranchChange targetBranch) =
            { st with
              mergeMessage := suggested
              calls := st.calls ++ [Call.SuggestMergeMessage st.creator targetBranch]
              ui := st.ui ++ [UIOp.SetMergeMessage suggested] })
      ∧ (∀ (returned : String) (err : Er),
          env.SuggestMergeMessage st.calls st.creator targetBranch = (returned, some err) →
          (step env st (Event.TargetBranchChange targetBranch)).errChan =
              st.errChan ++ [some err]
          ∧ (step env st (Event.TargetBranchChange targetBranch)).ui = st.ui
          ∧ (st.errChan = [] →
              (step env st (Event.TargetBranchChange targetBranch)).result =
                some (some err)))) := by
  constructor
  · intro hm
    have hinit : (initState flagMessage flagRepository repositories mergeMessage :
        State Cr Br Er).targetBranchHandler = false := by
      simp [initState, hm]
    obtain ⟨h1, h2, h3⟩ := run_without_targetBranchHandler env events _ hinit
    have hth : st.targetBranchHandler = false := by
      rw [hst, run_targetBranchHandler, hinit]
    rw [hst]
    refine ⟨?_, ?_, ?_, ?_⟩
    · rw [h2]
      exact initState_setMergeMessage flagMessage flagRepository repositories mergeMessage hm
    · rw [h1]
      simp [initState]
    · rw [h3]
      simp [initState]
    · rw [← hst]
      simp [step, hth]
  · intro hmm hfm
    have hinit : (initState flagMessage flagRepository repositories mergeMessage :
        State Cr Br Er).targetBranchHandler = true := by
      simp [initState, hmm, hfm]
    have hth : st.targetBranchHandler = true := by
      rw [hst, run_targetBranchHandler, hinit]
    refine ⟨?_, ?_, ?_⟩
    · simp only [step, hth, if_true, targetBranchChangeHandler, State.send]
      split <;> rfl
    · intro suggested hs
      simp [step, hth, targetBranchChangeHandler, hs]
    · intro returned err hs
      have heq : step env st (Event.TargetBranchChange targetBranch) =
          { st with
            mergeMessage := returned
            calls := st.calls ++ [Call.SuggestMergeMessage st.creator targetBranch]
            errChan := st.errChan ++ [some err] } := by
        simp [step, hth, targetBranchChangeHandler, hs, State.send]
      rw [heq]
      refine ⟨rfl, rfl, ?_⟩
      intro h0
      simp [State.result, h0]

/-- Witness of C16: with the message `"Fix"` given as argument (and `"Flag"` as
flag) a target branch change does nothing; with no message given, the change
to `main` suggests `"Merge into main"`. -/
theorem merge_message_suggestion_witness :
    (run sampleRemote (initState "Flag" "" ["repoA", "repoB"] "Fix")
        [Event.RepositoryChange "repoB", Event.TargetBranchChange "main"]).ui.filter
          UIOp.isSetMergeMessage = [UIOp.SetMergeMessage "Fix"]
    ∧ step sampleRemote sampleState (Event.TargetBranchChange "main") =
        { sampleState with
          mergeMessage := "Merge into main"
          calls := sampleState.calls ++ [Call.SuggestMergeMessage (some 1) "main"]
          ui := sampleState.ui ++ [UIOp.SetMergeMessage "Merge into main"] } :=
  ⟨((merge_message_suggestion sampleRemote "Flag" "" ["repoA", "repoB"] "Fix"
      [Event.RepositoryChange "repoB", Event.TargetBranchChange "main"] "main" _ rfl).1
        (by decide)).1,
    ((merge_message_suggestion sampleRemote "" "" ["repoA", "repoB"] ""
      [Event.RepositoryChange "repoB"] "main" sampleState rfl).2 rfl rfl).2.1
        "Merge into main" (by decide)⟩

theorem targetBranchChangeHandler_mergeMessage (env : Remote Cr Br PR Er) (st : State Cr Br Er)
    (targetBranch : Br) :
    (targetBranchChangeHandler env targetBranch st).mergeMessage =
      (env.SuggestMergeMessage st.calls st.creator targetBranch).1 := by
  simp only [targetBranchChangeHandler, State.send]
  split <;> rfl

theorem targetBranchChangeHandler_live (env : Remote Cr Br PR Er) (st : State Cr Br Er)
    (targetBranch : Br) (h : (targetBranchChangeHandler env targetBranch st).errChan = []) :
    (env.SuggestMergeMessage st.calls st.creator targetBranch).2 = none := by
  simp only [targetBranchChangeHandler, State.send] at h
  split at h
  · simp at h
  · assumption

/-- C17: a source branch change calls `CollectWorkItems` on the current creator with
the new source branch and the current message, passes exactly the returned
list to `ui.SetWorkItems`, sends nothing on `errChan`, and changes neither
the creator nor the message. The current message is the message given up
front when there is one; otherwise it is what the most recent
`SuggestMergeMessage` call of a target branch change returned, and empty
while there has been no target branch change; as long as nothing has been
sent on `errChan`, that most recent call returned no error. -/
theorem sourceBranchChange_work_items (env : Remote Cr Br PR Er) (st : State Cr Br Er)
    (sourceBranch : Br) :
    step env st (Event.SourceBranchChange sourceBranch) =
        { st with
          calls := st.calls ++ [Call.CollectWorkItems st.creator sourceBranch st.mergeMessage]
          ui := st.ui ++
            [UIOp.SetWorkItems
              (env.CollectWorkItems st.calls st.creator sourceBranch st.mergeMessage)] }
    ∧ (step env st (Event.SourceBranchChange sourceBranch)).errChan = st.errChan
    ∧ (step env st (Event.SourceBranchChange sourceBranch)).result = st.result
    ∧ (step env st (Event.SourceBranchChange sourceBranch)).creator = st.creator
    ∧ (step env st (Event.SourceBranchChange sourceBranch)).mergeMessage = st.mergeMessage
    ∧ (∀ (flagMessage flagRepository : String) (repositories : List String)
        (mergeMessage : String) (events : List (Event Br Er)),
        (if mergeMessage = "" then flagMessage else mergeMessage) ≠ "" →
        (run env (initState flagMessage flagRepository repositories mergeMessage) events
          ).mergeMessage = (if mergeMessage = "" then flagMessage else mergeMessage))
    ∧ (∀ (flagRepository : String) (repositories : List String) (events : List (Event Br Er)),
        (∀ e ∈ events, e.isTargetBranchChange = false) →
        (run env (initState "" flagRepository repositories "") events).mergeMessage = "")
    ∧ (∀ (flagRepository : String) (repositories : List String) (pre post : List (Event Br Er))
        (targetBranch : Br),
        (∀ e ∈ post, e.isTargetBranchChange = false) →
        (run env (initState "" flagRepository repositories "")
          (pre ++ Event.TargetBranchChange targetBranch :: post)).mergeMessage =
        (env.SuggestMergeMessage
          (run env (initState "" flagRepository repositories "") pre).calls
          (run env (initState "" flagRepository repositories "") pre).creator
          targetBranch).1)
    ∧ (∀ (flagRepository : String) (repositories : List String) (pre post : List (Event Br Er))
        (targetBranch : Br),
        (run env (initState "" flagRepository repositories "")
          (pre ++ Event.TargetBranchChange targetBranch :: post)).errChan = [] →
        (env.SuggestMergeMessage
          (run env (initState "" flagRepository repositories "") pre).calls
          (run env (initState "" flagRepository repositories "") pre).creator
          targetBranch).2 = none) := by
  refine ⟨rfl, rfl, rfl, rfl, rfl, ?_, ?_, ?_, ?_⟩
  · intro flagMessage flagRepository repositories mergeMessage events hm
    have hinit : (initState flagMessage flagRepository repositories mergeMessage :
        State Cr Br Er).targetBranchHandler = false := by
      simp [initState, hm]
    rw [(run_without_targetBranchHandler env events _ hinit).2.2]
    simp [initState]
  · intro flagRepository repositories events hev
    rw [run_mergeMessage_of_no_target env events _ hev]
    simp [initState]
  · intro flagRepository repositories pre post targetBranch hpost
    have hth : (run env (initState "" flagRepository repositories "" : State Cr Br Er)
        pre).targetBranchHandler = true := by
      rw [run_targetBranchHandler]
      simp [initState]
    rw [run_append, run_cons, run_mergeMessage_of_no_target env post _ hpost]
    simp only [step, hth, if_true]
    exact targetBranchChangeHandler_mergeMessage env _ targetBranch
  · intro flagRepository repositories pre post targetBranch hlive
    have hth : (run env (initState "" flagRepository repositories "" : State Cr Br Er)
        pre).targetBranchHandler = true := by
      rw [run_targetBranchHandler]
      simp [initState]
    rw [run_append, run_cons] at hlive
    obtain ⟨sent, hsent, _⟩ := run_errChan env post
      (step env (run env (initState "" flagRepository repositories "") pre)
        (Event.TargetBranchChange targetBranch))
    rw [hlive] at hsent
    have hstep : (step env (run env (initState "" flagRepository repositories "") pre)
        (Event.TargetBranchChange targetBranch)).errChan = [] :=
      (List.append_eq_nil.mp hsent.symm).1
    simp only [step, hth, if_true] at hstep
    exact targetBranchChangeHandler_live env _ targetBranch hstep

/-- Witness of C17: after the target branch changed to `main`, a source branch
change to `dev` collects the work items for `"Merge into main"`. -/
theorem sourceBranchChange_work_items_witness :
    (run sampleRemote sampleInit
        [Event.RepositoryChange "repoB", Event.TargetBranchChange "main",
          Event.SourceBranchChange "dev"]).mergeMessage = "Merge into main"
    ∧ (step sampleRemote
        (run sampleRemote sampleInit
          [Event.RepositoryChange "repoB", Event.TargetBranchChange "main"])
        (Event.SourceBranchChange "dev")).calls =
      [Call.NewCreator "repoB", Call.GetBranchCandidates (some 1),
        Call.SuggestMergeMessage (some 1) "main",
        Call.CollectWorkItems (some 1) "dev" "Merge into main"] :=
  ⟨(sourceBranchChange_work_items sampleRemote sampleInit "dev").2.2.2.2.2.2.2.1 ""
      ["repoA", "repoB"] [Event.RepositoryChange "repoB"] [Event.SourceBranchChange "dev"]
      "main" (by decide),
    congrArg State.calls
      (sourceBranchChange_work_items sampleRemote
        (run sampleRemote sampleInit
          [Event.RepositoryChange "repoB", Event.TargetBranchChange "main"]) "dev").1⟩

end ChangeClaims

/-! ## Empty titles: claim -/

theorem splitMergeMessage_fst_eq_empty_iff (raw : String) :
    (splitMergeMessage raw).1 = "" ↔ (raw = "" ∨ ∃ rest : String, raw = "\n\n" ++ rest) := by
  constructor
  · intro ht
    by_cases hb : ∃ a b : String, raw = a ++ "\n\n" ++ b
    · right
      have h1 := (splitMergeMessage_blank_line raw hb).1
      rw [ht] at h1
      exact ⟨(splitMergeMessage raw).2, by simpa using h1⟩
    · left
      rw [splitMergeMessage_no_blank_line raw hb] at ht
      exact ht
  · rintro (h | ⟨rest, h⟩)
    · rw [h]
      decide
    · have hb : ∃ a b : String, raw = a ++ "\n\n" ++ b := ⟨"", rest, by simpa using h⟩
      have hlen := (splitMergeMessage_blank_line raw hb).2.2 "" rest (by simpa using h)
      have h0 : (splitMergeMessage raw).1.length = 0 := by
        have : ("" : String).length = 0 := rfl
        omega
      apply String.ext
      exact List.length_eq_zero.mp h0

section EmptyTitleClaims

variable {Cr Br PR Er : Type}

/-- C18: with work-item prefixing off, or with an empty work-item list, the title the
create handler passes to `CreatePullRequest` is the title of the split, and it
is empty exactly when the raw merge message is empty or starts with `"\n\n"`.
So the non-empty message `"\n\nBody"` is submitted with an empty title, and
the message `"\n\n"` with an empty title and an empty description. -/
theorem empty_title_iff (env : Remote Cr Br PR Er) (st : State Cr Br Er)
    (s : UserSelections Br) (hv : env.validate s = none)
    (hp : s.WithWorkItemIDs = false ∨ s.WorkItems = []) :
    (createHandler env s st).calls = st.calls ++
        [Call.CreatePullRequest st.creator s.SourceBranch s.TargetBranch
          (composeMessage s).1 (composeMessage s).2 s.WorkItems s.Squash]
    ∧ (composeMessage s).1 = (splitMergeMessage s.MergeMessage).1
    ∧ ((composeMessage s).1 = "" ↔
        (s.MergeMessage = "" ∨ ∃ rest : String, s.MergeMessage = "\n\n" ++ rest))
    ∧ (composeMessage { s with MergeMessage := "\n\nBody" }).1 = ""
    ∧ composeMessage { s with MergeMessage := "\n\n" } = ("", "") := by
  have htitle : ∀ s' : UserSelections Br,
      (s'.WithWorkItemIDs = false ∨ s'.WorkItems = []) →
      (composeMessage s').1 = (splitMergeMessage s'.MergeMessage).1 := by
    intro s' hp'
    cases hw : s'.WithWorkItemIDs with
    | false => rw [composeMessage_off s' hw]
    | true =>
      rcases hp' with h | h
      · rw [hw] at h
        cases h
      · by_cases hd : (splitMergeMessage s'.MergeMessage).2 = ""
        · rw [composeMessage_on_empty s' hw hd, h]
          rfl
        · rw [composeMessage_on_nonempty s' hw hd, h]
          rfl
  have hs1 : splitMergeMessage "\n\nBody" = ("", "Body") := by decide
  have hs2 : splitMergeMessage "\n\n" = ("", "") := by decide
  refine ⟨createHandler_calls env st s hv, htitle s hp, ?_, ?_, ?_⟩
  · rw [htitle s hp]
    exact splitMergeMessage_fst_eq_empty_iff s.MergeMessage
  · rw [htitle { s with MergeMessage := "\n\nBody" } hp]
    simp only [hs1]
  · cases hw : s.WithWorkItemIDs with
    | false => simp [composeMessage, hw, hs2]
    | true =>
      rcases hp with h | h
      · rw [hw] at h
        cases h
      · simp [composeMessage, hw, hs2, h, prependWorkItemIDs]

/-- Witness of C18: the non-empty message `"\n\nBody"` passes the validation schema
and is submitted with the empty title. -/
theorem empty_title_iff_witness :
    sampleRemote.validate ⟨"dev", "main", "\n\nBody", false, ["7"], false⟩ = none
    ∧ (createHandler sampleRemote ⟨"dev", "main", "\n\nBody", false, ["7"], false⟩
        sampleState).calls = sampleState.calls ++
          [Call.CreatePullRequest (some 1) "dev" "main" "" "Body" ["7"] false] :=
  ⟨by decide,
    (empty_title_iff sampleRemote sampleState ⟨"dev", "main", "\n\nBody", false, ["7"], false⟩
      (by decide) (Or.inl rfl)).1⟩

end EmptyTitleClaims

end Tasker
